import Mathlib

/-!
Shallow embedding of the chess rules engine of the chess-bot repository
(src/lib/gamelogic/mod.rs, board.rs, pieces.rs), together with theorems
settling the claims C1-C10 about it.

Conventions used throughout:
* A Rust panic (unwrap, expect, out-of-range indexing, usize underflow) is
  modelled by Option: none is a panic, some a normal return.
* usize is modelled by Nat; grid cells are addressed squares[column][row]
  exactly as in the source, with (0,0) = a1 and (7,7) = h8.
* Rust char comparisons compare Unicode scalar values, so they are embedded
  as comparisons of Char.toNat.
* The repository mixes superseded revisions of its two core files: mod.rs
  declares ChessMove without the dest_threatened and dest_defended metadata
  fields that pieces.rs fills in, and declares ChessError without the
  InvalidState constructor that board.rs uses.  We embed the fields both
  files agree on plus the constructors actually used; the two metadata
  booleans are derived annotations that no claim or control path reads.
-/

/-- Decidable equality for Except results (Rust's Result). -/
instance {ε α : Type} [DecidableEq ε] [DecidableEq α] :
    DecidableEq (Except ε α)
  | .ok a, .ok b =>
    if h : a = b then .isTrue (by rw [h])
    else .isFalse (by intro hh; cases hh; exact h rfl)
  | .ok _, .error _ => .isFalse (by intro h; cases h)
  | .error _, .ok _ => .isFalse (by intro h; cases h)
  | .error e, .error f =>
    if h : e = f then .isTrue (by rw [h])
    else .isFalse (by intro hh; cases hh; exact h rfl)

namespace ChessBot

/-- Side enum of mod.rs / pieces.rs. -/
inductive Side where
  | White
  | Black
deriving DecidableEq, Repr
/-- impl Not for Side. -/
def Side.not : Side → Side
  | .White => .Black
  | .Black => .White
/-- PieceType enum of pieces.rs. -/
inductive PieceType where
  | Pawn
  | Rook
  | Knight
  | Bishop
  | Queen
  | King
deriving DecidableEq, Repr
/-- ChessPiece struct of pieces.rs: stored position is (column, row). -/
structure ChessPiece where
  position : Nat × Nat
  side : Side
  piece_type : PieceType
deriving DecidableEq, Repr
/-- MoveType enum of mod.rs. -/
inductive MoveType where
  | Standard
  | DoubleAdvance
  | EnPassant
  | Castle
  | Promotion
deriving DecidableEq, Repr
/-- ChessMove struct of mod.rs (the revision without the threat metadata). -/
structure ChessMove where
  from_square : Nat × Nat
  destination : Nat × Nat
  move_type : MoveType
  captures : Option (Nat × Nat)
deriving DecidableEq, Repr
/-- ChessError of mod.rs, extended with the InvalidState constructor that
board.rs constructs (missing from the mod.rs revision in the snapshot). -/
inductive ChessError where
  | InvalidArgument (msg : String)
  | InvalidMove (msg : String)
  | InvalidState (msg : String)
deriving DecidableEq, Repr
/-- GameEnd enum of mod.rs. -/
inductive GameEnd where
  | WhiteVictory (reason : String)
  | BlackVictory (reason : String)
  | Draw (reason : String)
deriving DecidableEq, Repr
/-- BoardStateFlags struct of board.rs. -/
structure BoardStateFlags where
  white_castle_queenside : Bool
  white_castle_kingside : Bool
  black_castle_queenside : Bool
  black_castle_kingside : Bool
  en_passant_column : Option Nat
  current_turn : Side
deriving DecidableEq, Repr
/-- Default for BoardStateFlags: all castling rights held, no en passant,
White to move. -/
def BoardStateFlags.default : BoardStateFlags :=
  { white_castle_queenside := true
    white_castle_kingside := true
    black_castle_queenside := true
    black_castle_kingside := true
    en_passant_column := none
    current_turn := .White }
/-- ChessBoard struct of board.rs.  The 8 x 8 array of squares is modelled as
a list of 8 columns of 8 rows.  The repetition map hashes the Display
rendering of the board; we model the hash value by the rendered string
itself (equal renderings have equal hashes), so the count map is keyed by
String. -/
structure ChessBoard where
  squares : List (List (Option ChessPiece))
  state : BoardStateFlags
  board_state_counts : List (String × Nat)
  move_list : List ChessMove
deriving DecidableEq, Repr
/-- The Rust type [[Option<ChessPiece>; 8]; 8] guarantees an 8 x 8 grid;
with the list model this becomes an invariant. -/
def WellFormedGrid (b : ChessBoard) : Prop :=
  b.squares.length = 8 ∧ ∀ colL ∈ b.squares, colL.length = 8
/-- Well-formedness of a grid is decidable by evaluation. -/
instance : DecidablePred WellFormedGrid := fun b => by
  unfold WellFormedGrid; infer_instance
/-- name_to_index_pair of mod.rs.  Rust String::len counts bytes, hence
utf8ByteSize; the chars() iterator walks s.data.  The two unwrap calls on
the iterator are modelled as panics (none); they are provably unreachable. -/
def name_to_index_pair (square_name : String) :
    Option (Except ChessError (Nat × Nat)) :=
  if square_name.utf8ByteSize ≠ 2 then
    some (.error (.InvalidArgument
      ("Square name expected, e.g. 'b4', was given: '" ++ square_name ++ "'")))
  else
    match square_name.data with
    | [] => none
    | column_letter :: rest =>
      if column_letter.toNat > 'h'.toNat ∨ column_letter.toNat < 'a'.toNat then
        some (.error (.InvalidArgument
          ("Invalid column reference '" ++ String.singleton column_letter ++
            "', must be between 'a' and 'h'")))
      else
        let column_index := 7 + column_letter.toNat - 'h'.toNat
        match rest with
        | [] => none
        | row_number :: _ =>
          if row_number.toNat > '8'.toNat ∨ row_number.toNat < '1'.toNat then
            some (.error (.InvalidArgument
              ("Invalid row reference '" ++ String.singleton row_number ++
                "', must be between '1' and '8'")))
          else
            some (.ok (column_index, 7 + row_number.toNat - '8'.toNat))
/-- index_pair_to_name of mod.rs.  The char::from_u32 unwraps cannot fail:
the code points are at most 'a'+7 and '1'+7. -/
def index_pair_to_name (column row : Nat) : Except ChessError String :=
  if column > 7 then
    .error (.InvalidArgument
      ("Column invalid, expected to be between 0-7 inclusive: '" ++
        toString column ++ "'"))
  else if row > 7 then
    .error (.InvalidArgument
      ("Row invalid, expected to be between 0-7 inclusive: '" ++
        toString row ++ "'"))
  else
    .ok (String.singleton (Char.ofNat ('a'.toNat + column)) ++
      String.singleton (Char.ofNat ('1'.toNat + row)))
/-- get_square_by_index of board.rs: plain array indexing, which panics when
an index is out of range (the TODO comment in the source acknowledges the
potential run-time error). -/
def ChessBoard.get_square_by_index (b : ChessBoard) (column row : Nat) :
    Option (Option ChessPiece) :=
  (b.squares.get? column).bind fun colL => colL.get? row
/-- get_square_by_position of board.rs. -/
def ChessBoard.get_square_by_position (b : ChessBoard) (position : Nat × Nat) :
    Option (Option ChessPiece) :=
  b.get_square_by_index position.fst position.snd
/-- get_square_by_name of board.rs: name_to_index_pair with ?, then the
(in-range) index lookup. -/
def ChessBoard.get_square_by_name (b : ChessBoard) (square_name : String) :
    Option (Except ChessError (Option ChessPiece)) := do
  let r ← name_to_index_pair square_name
  match r with
  | .error e => some (.error e)
  | .ok (column_index, row_index) =>
    match b.get_square_by_index column_index row_index with
    | none => none
    | some sq => some (.ok sq)
/-- Writing squares[c][r] = v.  Rust indexing for writes panics out of
range, hence the bounds checks. -/
def ChessBoard.setSquare (b : ChessBoard) (column row : Nat)
    (v : Option ChessPiece) : Option ChessBoard :=
  match b.squares.get? column with
  | none => none
  | some colL =>
    if row < colL.length then
      some { b with squares := b.squares.set column (colL.set row v) }
    else none
/-- get_material of pieces.rs. -/
def ChessPiece.get_material (p : ChessPiece) : Nat :=
  match p.piece_type with
  | .Pawn => 1
  | .Rook => 5
  | .Knight => 3
  | .Bishop => 3
  | .Queen => 9
  | .King => 42
/-- The columns [lo, lo+1, ..., 7], i.e. the Rust range lo..8 (empty when
lo is at least 8). -/
def rangeFrom (lo : Nat) : List Nat := (List.range 8).drop lo
/-- get_pawn_threats of pieces.rs (reads no board state; total). -/
def get_pawn_threats (piece : ChessPiece) (_board : ChessBoard) :
    List (Nat × Nat) :=
  let current_col := piece.position.fst
  let current_row := piece.position.snd
  if current_row % 7 = 0 then []
  else if piece.side = .White then
    (if current_col > 0 then [(current_col - 1, current_row + 1)] else []) ++
    (if current_col < 7 then [(current_col + 1, current_row + 1)] else [])
  else
    (if current_col > 0 then [(current_col - 1, current_row - 1)] else []) ++
    (if current_col < 7 then [(current_col + 1, current_row - 1)] else [])
/-- One rook-threat ray of get_rook_threats: walk the listed cells, pushing
each and stopping after the first occupied one.  The board access panics
(none) when a coordinate is out of range. -/
def rookThreatWalk (board : ChessBoard) :
    List (Nat × Nat) → Option (List (Nat × Nat))
  | [] => some []
  | (c, r) :: rest =>
    match board.get_square_by_index c r with
    | none => none
    | some none => (rookThreatWalk board rest).map (fun l => (c, r) :: l)
    | some (some _) => some [(c, r)]
/-- get_rook_threats of pieces.rs: the four orthogonal rays, in source
order (left, right, down, up). -/
def get_rook_threats (piece : ChessPiece) (board : ChessBoard) :
    Option (List (Nat × Nat)) := do
  let current_col := piece.position.fst
  let current_row := piece.position.snd
  let t1 ← rookThreatWalk board
    (((List.range current_col).reverse).map (fun col => (col, current_row)))
  let t2 ← rookThreatWalk board
    ((rangeFrom (current_col + 1)).map (fun col => (col, current_row)))
  let t3 ← rookThreatWalk board
    (((List.range current_row).reverse).map (fun row => (current_col, row)))
  let t4 ← rookThreatWalk board
    ((rangeFrom (current_row + 1)).map (fun row => (current_col, row)))
  pure (t1 ++ t2 ++ t3 ++ t4)
/-- get_knight_threats of pieces.rs (total). -/
def get_knight_threats (piece : ChessPiece) (_board : ChessBoard) :
    List (Nat × Nat) :=
  let cc := piece.position.fst
  let cr := piece.position.snd
  (if cc > 1 then
    (if cr < 7 then [(cc - 2, cr + 1)] else []) ++
    (if cr > 0 then [(cc - 2, cr - 1)] else [])
  else []) ++
  (if cc < 6 then
    (if cr < 7 then [(cc + 2, cr + 1)] else []) ++
    (if cr > 0 then [(cc + 2, cr - 1)] else [])
  else []) ++
  (if cr < 6 then
    (if cc > 0 then [(cc - 1, cr + 2)] else []) ++
    (if cc < 7 then [(cc + 1, cr + 2)] else [])
  else []) ++
  (if cr > 1 then
    (if cc > 0 then [(cc - 1, cr - 2)] else []) ++
    (if cc < 7 then [(cc + 1, cr - 2)] else [])
  else [])
/-- One bishop-threat ray of get_bishop_threats: the source checks the edge
break first, then pushes, then stops if the pushed square is occupied. -/
def diagThreatWalk (board : ChessBoard) :
    List (Nat × Nat) → Option (List (Nat × Nat))
  | [] => some []
  | (c, r) :: rest =>
    if c > 7 ∨ r > 7 then some []
    else
      match board.get_square_by_index c r with
      | none => none
      | some none => (diagThreatWalk board rest).map (fun l => (c, r) :: l)
      | some (some _) => some [(c, r)]
/-- get_bishop_threats of pieces.rs: the four diagonal rays in source order
(up-left, up-right, down-left, down-right).  Note 7 - current_row is usize
subtraction in the source; positions on the board keep it in range. -/
def get_bishop_threats (piece : ChessPiece) (board : ChessBoard) :
    Option (List (Nat × Nat)) := do
  let cc := piece.position.fst
  let cr := piece.position.snd
  let t1 ← diagThreatWalk board
    ((List.range' 1 (min cc (7 - cr))).map (fun d => (cc - d, cr + d)))
  let t2 ← diagThreatWalk board
    ((List.range' 1 (min (7 - cc) (7 - cr))).map (fun d => (cc + d, cr + d)))
  let t3 ← diagThreatWalk board
    ((List.range' 1 (min cc cr)).map (fun d => (cc - d, cr - d)))
  let t4 ← diagThreatWalk board
    ((List.range' 1 (min (7 - cc) cr)).map (fun d => (cc + d, cr - d)))
  pure (t1 ++ t2 ++ t3 ++ t4)
/-- get_queen_threats of pieces.rs: bishop threats then rook threats. -/
def get_queen_threats (piece : ChessPiece) (board : ChessBoard) :
    Option (List (Nat × Nat)) := do
  let d ← get_bishop_threats piece board
  let h ← get_rook_threats piece board
  pure (d ++ h)
/-- get_king_threats of pieces.rs: the two shift loops over 0..3 with the
edge and center skips (total). -/
def get_king_threats (piece : ChessPiece) (_board : ChessBoard) :
    List (Nat × Nat) :=
  let cc := piece.position.fst
  let cr := piece.position.snd
  (List.range 3).flatMap fun cs =>
    (List.range 3).filterMap fun rs =>
      if (cs = 0 ∧ cc = 0) ∨ (rs = 0 ∧ cr = 0) ∨ (cs = 2 ∧ cc = 7) ∨
          (rs = 2 ∧ cr = 7) then none
      else if cs = 1 ∧ rs = 1 then none
      else some (cc + cs - 1, cr + rs - 1)
/-- get_threats dispatch of pieces.rs (ChessPiece::get_threats). -/
def ChessPiece.get_threats (p : ChessPiece) (board : ChessBoard) :
    Option (List (Nat × Nat)) :=
  match p.piece_type with
  | .Pawn => some (get_pawn_threats p board)
  | .Rook => get_rook_threats p board
  | .Knight => some (get_knight_threats p board)
  | .Bishop => get_bishop_threats p board
  | .Queen => get_queen_threats p board
  | .King => some (get_king_threats p board)
/-- Inner loop of get_threatened: walk one column, appending the threats of
every piece of the requested side. -/
def columnThreats (board : ChessBoard) (side : Side) :
    List (Option ChessPiece) → Option (List (Nat × Nat))
  | [] => some []
  | sq :: rest =>
    match sq with
    | some p =>
      if p.side = side then do
        let t ← p.get_threats board
        let r ← columnThreats board side rest
        pure (t ++ r)
      else columnThreats board side rest
    | none => columnThreats board side rest
/-- Outer loop of get_threatened over the columns. -/
def columnsThreats (board : ChessBoard) (side : Side) :
    List (List (Option ChessPiece)) → Option (List (Nat × Nat))
  | [] => some []
  | colL :: rest => do
    let t ← columnThreats board side colL
    let r ← columnsThreats board side rest
    pure (t ++ r)
/-- get_threatened of board.rs. -/
def ChessBoard.get_threatened (b : ChessBoard) (side : Side) :
    Option (List (Nat × Nat)) :=
  columnsThreats b side b.squares
/-- get_threatened_map of board.rs builds a HashSet from get_threatened; it
is only consumed through membership tests, so the list itself models it. -/
def ChessBoard.get_threatened_map (b : ChessBoard) (side : Side) :
    Option (List (Nat × Nat)) :=
  b.get_threatened side
/-- is_square_threatened of board.rs. -/
def ChessBoard.is_square_threatened (b : ChessBoard) (side : Side)
    (square : Nat × Nat) : Option Bool :=
  (b.get_threatened_map side).map fun l => decide (square ∈ l)
/-- The predicate the is_checked search applies to one square (a King of
the given side occupies it). -/
def kingSquarePred (side : Side) (sq : Option ChessPiece) : Bool :=
  match sq with
  | some p => p.piece_type == .King && p.side == side
  | none => false
/-- is_checked of board.rs: find the king of the side (the two unwraps
panic when it is missing from the grid), then ask whether the opposing
side threatens its stored position. -/
def ChessBoard.is_checked (b : ChessBoard) (side : Side) : Option Bool :=
  match b.squares.findSome? (fun colL => colL.find? (kingSquarePred side)) with
  | none => none
  | some none => none
  | some (some king_piece) =>
    b.is_square_threatened side.not king_piece.position
/-- Inner loop of get_all_pieces over one column. -/
def columnPieces (side : Side) (colL : List (Option ChessPiece)) :
    List ChessPiece :=
  colL.filterMap fun sq =>
    match sq with
    | some p => if p.side = side then some p else none
    | none => none
/-- get_all_pieces of board.rs: column-major collection of one side's
pieces. -/
def ChessBoard.get_all_pieces (b : ChessBoard) (side : Side) :
    List ChessPiece :=
  b.squares.flatMap (columnPieces side)
/-- Shorthand for a ChessMove literal. -/
def mkMove (from_square destination : Nat × Nat) (move_type : MoveType)
    (captures : Option (Nat × Nat)) : ChessMove :=
  { from_square, destination, move_type, captures }
/-- get_pawn_moves of pieces.rs.  Push order follows the source: double
advance, single advance, negative-side capture, positive-side capture,
en passant.  A black pawn on row 0 underflows current_row - 1 in Rust;
the truncated Nat subtraction here only differs on such off-board pawns,
which no claim exercises. -/
def get_pawn_moves (piece : ChessPiece) (board : ChessBoard) :
    Option (List ChessMove) := do
  let cc := piece.position.fst
  let cr := piece.position.snd
  if piece.side = .White then
    let dbl ←
      (if cr = 1 then do
        let s1 ← board.get_square_by_index cc (cr + 1)
        if s1.isNone then do
          let s2 ← board.get_square_by_index cc (cr + 2)
          if s2.isNone then
            pure [mkMove (cc, cr) (cc, cr + 2) .DoubleAdvance none]
          else pure []
        else pure []
      else pure [])
    let fwd ← do
      let s1 ← board.get_square_by_index cc (cr + 1)
      if s1.isNone then
        pure [mkMove (cc, cr) (cc, cr + 1)
          (if cr + 1 = 7 then .Promotion else .Standard) none]
      else pure []
    let capL ←
      (if cc ≥ 1 then do
        let s ← board.get_square_by_index (cc - 1) (cr + 1)
        match s with
        | some q =>
          if q.side ≠ piece.side then
            pure [mkMove (cc, cr) (cc - 1, cr + 1)
              (if cr + 1 = 7 then .Promotion else .Standard)
              (some (cc - 1, cr + 1))]
          else pure []
        | none => pure []
      else pure [])
    let capR ←
      (if cc ≤ 6 then do
        let s ← board.get_square_by_index (cc + 1) (cr + 1)
        match s with
        | some q =>
          if q.side ≠ piece.side then
            pure [mkMove (cc, cr) (cc + 1, cr + 1)
              (if cr + 1 = 7 then .Promotion else .Standard)
              (some (cc + 1, cr + 1))]
          else pure []
        | none => pure []
      else pure [])
    let ep :=
      match board.state.en_passant_column with
      | some epc =>
        if cr = 4 ∧ (if cc ≥ epc then cc - epc else epc - cc) = 1 then
          [mkMove (cc, cr) (epc, cr + 1) .EnPassant (some (epc, cr + 1 - 1))]
        else []
      | none => []
    pure (dbl ++ fwd ++ capL ++ capR ++ ep)
  else
    let dbl ←
      (if cr = 6 then do
        let s1 ← board.get_square_by_index cc (cr - 1)
        if s1.isNone then do
          let s2 ← board.get_square_by_index cc (cr - 2)
          if s2.isNone then
            pure [mkMove (cc, cr) (cc, cr - 2) .DoubleAdvance none]
          else pure []
        else pure []
      else pure [])
    let fwd ← do
      let s1 ← board.get_square_by_index cc (cr - 1)
      if s1.isNone then
        pure [mkMove (cc, cr) (cc, cr - 1)
          (if cr - 1 = 0 then .Promotion else .Standard) none]
      else pure []
    let capL ←
      (if cc ≥ 1 then do
        let s ← board.get_square_by_index (cc - 1) (cr - 1)
        match s with
        | some q =>
          if q.side ≠ piece.side then
            pure [mkMove (cc, cr) (cc - 1, cr - 1)
              (if cr - 1 = 0 then .Promotion else .Standard)
              (some (cc - 1, cr - 1))]
          else pure []
        | none => pure []
      else pure [])
    let capR ←
      (if cc ≤ 6 then do
        let s ← board.get_square_by_index (cc + 1) (cr - 1)
        match s with
        | some q =>
          if q.side ≠ piece.side then
            pure [mkMove (cc, cr) (cc + 1, cr - 1)
              (if cr - 1 = 0 then .Promotion else .Standard)
              (some (cc + 1, cr - 1))]
          else pure []
        | none => pure []
      else pure [])
    let ep :=
      match board.state.en_passant_column with
      | some epc =>
        if cr = 3 ∧ (if cc ≥ epc then cc - epc else epc - cc) = 1 then
          [mkMove (cc, cr) (epc, cr - 1) .EnPassant (some (epc, cr - 1 + 1))]
        else []
      | none => []
    pure (dbl ++ fwd ++ capL ++ capR ++ ep)
/-- One rook-move ray of get_rook_moves: empty squares become Standard
moves, the first occupied square becomes a capture when it holds an enemy
piece, and the walk stops there either way. -/
def rookMoveWalk (piece : ChessPiece) (board : ChessBoard)
    (from_square : Nat × Nat) :
    List (Nat × Nat) → Option (List ChessMove)
  | [] => some []
  | (c, r) :: rest =>
    match board.get_square_by_index c r with
    | none => none
    | some none =>
      (rookMoveWalk piece board from_square rest).map
        (fun l => mkMove from_square (c, r) .Standard none :: l)
    | some (some q) =>
      if q.side ≠ piece.side then
        some [mkMove from_square (c, r) .Standard (some (c, r))]
      else some []
/-- get_rook_moves of pieces.rs: four orthogonal rays in source order. -/
def get_rook_moves (piece : ChessPiece) (board : ChessBoard) :
    Option (List ChessMove) := do
  let cc := piece.position.fst
  let cr := piece.position.snd
  let m1 ← rookMoveWalk piece board (cc, cr)
    (((List.range cc).reverse).map (fun col => (col, cr)))
  let m2 ← rookMoveWalk piece board (cc, cr)
    ((rangeFrom (cc + 1)).map (fun col => (col, cr)))
  let m3 ← rookMoveWalk piece board (cc, cr)
    (((List.range cr).reverse).map (fun row => (cc, row)))
  let m4 ← rookMoveWalk piece board (cc, cr)
    ((rangeFrom (cr + 1)).map (fun row => (cc, row)))
  pure (m1 ++ m2 ++ m3 ++ m4)
/-- One knight or king destination candidate: allowed unless occupied by an
own piece; captures records the stored position of the occupant. -/
def standardDestCand (piece : ChessPiece) (board : ChessBoard)
    (from_square : Nat × Nat) (c r : Nat) : Option (List ChessMove) := do
  let sq ← board.get_square_by_index c r
  match sq with
  | none => pure [mkMove from_square (c, r) .Standard none]
  | some q =>
    if q.side ≠ piece.side then
      pure [mkMove from_square (c, r) .Standard (some q.position)]
    else pure []
/-- get_knight_moves of pieces.rs: the eight guarded offsets in source
order. -/
def get_knight_moves (piece : ChessPiece) (board : ChessBoard) :
    Option (List ChessMove) := do
  let cc := piece.position.fst
  let cr := piece.position.snd
  let l1 ← if cc > 1 ∧ cr < 7 then
      standardDestCand piece board (cc, cr) (cc - 2) (cr + 1) else pure []
  let l2 ← if cc > 1 ∧ cr > 0 then
      standardDestCand piece board (cc, cr) (cc - 2) (cr - 1) else pure []
  let l3 ← if cc < 6 ∧ cr < 7 then
      standardDestCand piece board (cc, cr) (cc + 2) (cr + 1) else pure []
  let l4 ← if cc < 6 ∧ cr > 0 then
      standardDestCand piece board (cc, cr) (cc + 2) (cr - 1) else pure []
  let l5 ← if cr < 6 ∧ cc > 0 then
      standardDestCand piece board (cc, cr) (cc - 1) (cr + 2) else pure []
  let l6 ← if cr < 6 ∧ cc < 7 then
      standardDestCand piece board (cc, cr) (cc + 1) (cr + 2) else pure []
  let l7 ← if cr > 1 ∧ cc > 0 then
      standardDestCand piece board (cc, cr) (cc - 1) (cr - 2) else pure []
  let l8 ← if cr > 1 ∧ cc < 7 then
      standardDestCand piece board (cc, cr) (cc + 1) (cr - 2) else pure []
  pure (l1 ++ l2 ++ l3 ++ l4 ++ l5 ++ l6 ++ l7 ++ l8)
/-- One bishop-move ray, mirroring diagThreatWalk but producing moves. -/
def diagMoveWalk (piece : ChessPiece) (board : ChessBoard)
    (from_square : Nat × Nat) :
    List (Nat × Nat) → Option (List ChessMove)
  | [] => some []
  | (c, r) :: rest =>
    if c > 7 ∨ r > 7 then some []
    else
      match board.get_square_by_index c r with
      | none => none
      | some none =>
        (diagMoveWalk piece board from_square rest).map
          (fun l => mkMove from_square (c, r) .Standard none :: l)
      | some (some q) =>
        if q.side ≠ piece.side then
          some [mkMove from_square (c, r) .Standard (some (c, r))]
        else some []
/-- get_bishop_moves of pieces.rs. -/
def get_bishop_moves (piece : ChessPiece) (board : ChessBoard) :
    Option (List ChessMove) := do
  let cc := piece.position.fst
  let cr := piece.position.snd
  let m1 ← diagMoveWalk piece board (cc, cr)
    ((List.range' 1 (min cc (7 - cr))).map (fun d => (cc - d, cr + d)))
  let m2 ← diagMoveWalk piece board (cc, cr)
    ((List.range' 1 (min (7 - cc) (7 - cr))).map (fun d => (cc + d, cr + d)))
  let m3 ← diagMoveWalk piece board (cc, cr)
    ((List.range' 1 (min cc cr)).map (fun d => (cc - d, cr - d)))
  let m4 ← diagMoveWalk piece board (cc, cr)
    ((List.range' 1 (min (7 - cc) cr)).map (fun d => (cc + d, cr - d)))
  pure (m1 ++ m2 ++ m3 ++ m4)
/-- get_queen_moves of pieces.rs: bishop moves then rook moves. -/
def get_queen_moves (piece : ChessPiece) (board : ChessBoard) :
    Option (List ChessMove) := do
  let d ← get_bishop_moves piece board
  let h ← get_rook_moves piece board
  pure (d ++ h)
/-- Castling-rights clearing of perform_move for a rook leaving one of the
four corner squares (keyed on the origin square only, as in the source). -/
def rookFlagUpd (piece : ChessPiece) (current_position : Nat × Nat)
    (st : BoardStateFlags) : BoardStateFlags :=
  if piece.piece_type = .Rook then
    match current_position with
    | (0, 0) => { st with white_castle_queenside := false }
    | (7, 0) => { st with white_castle_kingside := false }
    | (0, 7) => { st with black_castle_queenside := false }
    | (7, 7) => { st with black_castle_kingside := false }
    | _ => st
  else st
/-- Castling-rights clearing of perform_move for a king move: both of the
moving side's wing flags are unset. -/
def kingFlagUpd (piece : ChessPiece) (st : BoardStateFlags) :
    BoardStateFlags :=
  if piece.piece_type = .King then
    match piece.side with
    | .White =>
      { st with white_castle_kingside := false, white_castle_queenside := false }
    | .Black =>
      { st with black_castle_kingside := false, black_castle_queenside := false }
  else st
/-- perform_move of board.rs.  The expect on an empty origin square, the
expect on a missing en-passant victim, and out-of-range writes are panics
(none).  The Castle arm recursively applies the paired rook's Standard
move; in Rust the recursion depth is at most one (the inner move is
Standard), so fuel 2 is sufficient and perform_move below fixes it. -/
def perform_move_fuel : Nat → ChessBoard → ChessMove → Option ChessBoard
  | 0, _, _ => none
  | _fuel + 1, board, chess_move => do
    let current_position := chess_move.from_square
    let pieceOpt ←
      board.get_square_by_index current_position.fst current_position.snd
    let piece0 ← pieceOpt
    let dest_col := chess_move.destination.fst
    let dest_row := chess_move.destination.snd
    let step ←
      (match chess_move.move_type with
      | .EnPassant => do
        let capCellOpt ←
          (match piece0.side with
          | .White =>
            if dest_row = 0 then none
            else board.get_square_by_index dest_col (dest_row - 1)
          | .Black => board.get_square_by_index dest_col (dest_row + 1))
        let captured ← capCellOpt
        let b1 ← board.setSquare captured.position.fst captured.position.snd
          none
        pure ({ b1 with state := { b1.state with en_passant_column := none } },
          piece0)
      | .DoubleAdvance =>
        pure ({ board with
          state := { board.state with en_passant_column := some dest_col } },
          piece0)
      | .Promotion =>
        pure ({ board with
          state := { board.state with en_passant_column := none } },
          { piece0 with piece_type := .Queen })
      | .Castle => do
        let castle_cols := if dest_col = 1 then ((0 : Nat), (2 : Nat))
          else (7, 5)
        let b0 := { board with
          state := { board.state with en_passant_column := none } }
        let b1 ← perform_move_fuel _fuel b0
          (mkMove (castle_cols.fst, dest_row) (castle_cols.snd, dest_row)
            .Standard none)
        pure (b1, piece0)
      | .Standard =>
        pure ({ board with
          state := { board.state with en_passant_column := none } },
          piece0))
    let b1 := step.fst
    let piece1 := step.snd
    let st1 := rookFlagUpd piece1 current_position b1.state
    let st2 := kingFlagUpd piece1 st1
    let b2 := { b1 with state := st2 }
    let piece2 := { piece1 with position := chess_move.destination }
    let b3 ← b2.setSquare current_position.fst current_position.snd none
    let b4 ← b3.setSquare dest_col dest_row (some piece2)
    pure b4
/-- perform_move of board.rs (see perform_move_fuel). -/
def ChessBoard.perform_move (b : ChessBoard) (m : ChessMove) :
    Option ChessBoard :=
  perform_move_fuel 2 b m
/-- move_would_cause_self_check of pieces.rs: clone, apply (unwrapping),
then test whether the side of the piece at the origin of the original
board is in check on the mutated copy. -/
def move_would_cause_self_check (board : ChessBoard) (the_move : ChessMove) :
    Option Bool := do
  let board_copy ← board.perform_move the_move
  let pieceOpt ← board.get_square_by_index the_move.from_square.fst
    the_move.from_square.snd
  let piece ← pieceOpt
  board_copy.is_checked piece.side
/-- The legality filter of ChessPiece::get_moves: keep exactly the
pseudo-legal moves whose simulation reports no self-check; a panic while
testing any candidate aborts the whole call. -/
def filterSelfCheck (board : ChessBoard) :
    List ChessMove → Option (List ChessMove)
  | [] => some []
  | m :: rest =>
    match move_would_cause_self_check board m with
    | none => none
    | some true => filterSelfCheck board rest
    | some false => (filterSelfCheck board rest).map (fun l => m :: l)
/-- The castle-path loop of get_king_moves: every listed column must be
empty and the king must be able to stand there without self-check
(simulated through move_would_cause_self_check). -/
def castlePathClear (board : ChessBoard) (from_square : Nat × Nat)
    (row : Nat) : List Nat → Option Bool
  | [] => some true
  | col :: rest => do
    let sq ← board.get_square_by_index col row
    if sq.isSome then pure false
    else do
      let chk ← move_would_cause_self_check board
        (mkMove from_square (col, row) .Standard none)
      if chk then pure false else castlePathClear board from_square row rest
/-- Queenside castle block of get_king_moves (one side): path columns
(1..current_col).rev(), then the rook verification that reads the square
at column 1 only when it is occupied, then the Castle push to column 1. -/
def queensideCastle (piece : ChessPiece) (board : ChessBoard)
    (cc cr : Nat) : Option (List ChessMove) := do
  let can ← castlePathClear board (cc, cr) cr
    ((List.range' 1 (cc - 1)).reverse)
  let can2 ←
    (if can then do
      let sq ← board.get_square_by_index 1 cr
      match sq with
      | some rook_piece =>
        pure (decide (piece.side = rook_piece.side ∧
          rook_piece.piece_type = .Rook))
      | none => pure true
    else pure false)
  if can2 then pure [mkMove (cc, cr) (1, cr) .Castle none] else pure []
/-- Kingside castle block of get_king_moves (one side): path columns
current_col+1..7, then the rook verification that tests occupancy of
column 7 but unwraps the square at column 1 (the stale-rook bug kept
faithfully), then the Castle push to column 6. -/
def kingsideCastle (piece : ChessPiece) (board : ChessBoard)
    (cc cr : Nat) : Option (List ChessMove) := do
  let can ← castlePathClear board (cc, cr) cr
    (List.range' (cc + 1) (7 - (cc + 1)))
  let can2 ←
    (if can then do
      let sq7 ← board.get_square_by_index 7 cr
      if sq7.isSome then do
        let sq1 ← board.get_square_by_index 1 cr
        match sq1 with
        | none => none
        | some rook_piece =>
          pure (decide (piece.side = rook_piece.side ∧
            rook_piece.piece_type = .Rook))
      else pure true
    else pure false)
  if can2 then pure [mkMove (cc, cr) (6, cr) .Castle none] else pure []
/-- get_king_moves of pieces.rs: the eight neighbour candidates, then the
castle candidates.

Modelled from the spec: the castle gates in pieces.rs read boolean fields
white_king_moved, white_queen_rook_moved, white_king_rook_moved (and the
black counterparts) that the BoardStateFlags revision in board.rs does not
declare.  The spec states that castling is offered for a wing only while
that wing's monotonic castling-rights flag is still held, which is exactly
the conjunction the source computes (not king_moved and not
that_rook_moved); so each wing's block is gated on the corresponding
white/black_castle_queenside/kingside flag, and the shared not-in-check
test is evaluated once when some wing flag is still held. -/
def get_king_moves (piece : ChessPiece) (board : ChessBoard) :
    Option (List ChessMove) := do
  let cc := piece.position.fst
  let cr := piece.position.snd
  let n1 ← if ¬(cc = 0) ∧ ¬(cr = 0) then
      standardDestCand piece board (cc, cr) (cc - 1) (cr - 1) else pure []
  let n2 ← if ¬(cc = 0) then
      standardDestCand piece board (cc, cr) (cc - 1) cr else pure []
  let n3 ← if ¬(cc = 0) ∧ ¬(cr = 7) then
      standardDestCand piece board (cc, cr) (cc - 1) (cr + 1) else pure []
  let n4 ← if ¬(cr = 0) then
      standardDestCand piece board (cc, cr) cc (cr - 1) else pure []
  let n5 ← if ¬(cr = 7) then
      standardDestCand piece board (cc, cr) cc (cr + 1) else pure []
  let n6 ← if ¬(cc = 7) ∧ ¬(cr = 0) then
      standardDestCand piece board (cc, cr) (cc + 1) (cr - 1) else pure []
  let n7 ← if ¬(cc = 7) then
      standardDestCand piece board (cc, cr) (cc + 1) cr else pure []
  let n8 ← if ¬(cc = 7) ∧ ¬(cr = 7) then
      standardDestCand piece board (cc, cr) (cc + 1) (cr + 1) else pure []
  let neighbours := n1 ++ n2 ++ n3 ++ n4 ++ n5 ++ n6 ++ n7 ++ n8
  let castles ←
    (match piece.side with
    | .White =>
      if board.state.white_castle_queenside ∨
          board.state.white_castle_kingside then do
        let ch ← board.is_checked .White
        if ch then pure []
        else do
          let qs ← if board.state.white_castle_queenside then
              queensideCastle piece board cc cr else pure []
          let ks ← if board.state.white_castle_kingside then
              kingsideCastle piece board cc cr else pure []
          pure (qs ++ ks)
      else pure []
    | .Black =>
      if board.state.black_castle_queenside ∨
          board.state.black_castle_kingside then do
        let ch ← board.is_checked .Black
        if ch then pure []
        else do
          let qs ← if board.state.black_castle_queenside then
              queensideCastle piece board cc cr else pure []
          let ks ← if board.state.black_castle_kingside then
              kingsideCastle piece board cc cr else pure []
          pure (qs ++ ks)
      else pure [])
  pure (neighbours ++ castles)
/-- ChessPiece::get_moves of pieces.rs: dispatch on the piece kind, then
the self-check legality filter. -/
def ChessPiece.get_moves (p : ChessPiece) (board : ChessBoard) :
    Option (List ChessMove) := do
  let unfiltered_moves ←
    (match p.piece_type with
    | .Pawn => get_pawn_moves p board
    | .Rook => get_rook_moves p board
    | .Knight => get_knight_moves p board
    | .Bishop => get_bishop_moves p board
    | .Queen => get_queen_moves p board
    | .King => get_king_moves p board)
  filterSelfCheck board unfiltered_moves
/-- Gathering loop of get_all_moves over a piece list. -/
def piecesMoves (board : ChessBoard) :
    List ChessPiece → Option (List ChessMove)
  | [] => some []
  | p :: rest => do
    let ms ← p.get_moves board
    let r ← piecesMoves board rest
    pure (ms ++ r)
/-- get_all_moves of board.rs. -/
def ChessBoard.get_all_moves (b : ChessBoard) (side : Side) :
    Option (List ChessMove) :=
  piecesMoves b (b.get_all_pieces side)
/-- A coloured fragment of the Display output.  The colored crate wraps the
text in ANSI escapes determined by the colour name; any injective tagging
models that faithfully for equality purposes. -/
def colorize (tag s : String) : String :=
  "<" ++ tag ++ ">" ++ s ++ "</" ++ tag ++ ">"
/-- The glyph Display prints for one piece (unicode figurine plus a space,
coloured white or blue by side). -/
def pieceGlyph (p : ChessPiece) : String :=
  match p.side with
  | .White => colorize "white"
    (match p.piece_type with
    | .Pawn => "♙ "
    | .Rook => "♖ "
    | .Knight => "♘ "
    | .Bishop => "♗ "
    | .Queen => "♕ "
    | .King => "♔ ")
  | .Black => colorize "blue"
    (match p.piece_type with
    | .Pawn => "♟︎ "
    | .Rook => "♜ "
    | .Knight => "♞ "
    | .Bishop => "♝ "
    | .Queen => "♛ "
    | .King => "♚ ")
/-- One cell of the Display grid, with the threat-map backgrounds. -/
def renderCell (b : ChessBoard) (wt bt : List (Nat × Nat))
    (col row : Nat) : Option String := do
  let s ← b.get_square_by_index col row
  let ch :=
    match s with
    | some p => pieceGlyph p
    | none => colorize "truecolor-128-128-128" "╶╴"
  let w := decide ((col, row) ∈ wt)
  let bl := decide ((col, row) ∈ bt)
  pure (if w && bl then colorize "on_green" ch
    else if w then colorize "on_white" ch
    else if bl then colorize "on_blue" ch
    else ch)
/-- One row of the Display grid (rank label, eight cells, newline). -/
def renderRow (b : ChessBoard) (wt bt : List (Nat × Nat)) (row : Nat) :
    Option String := do
  let cells ← (List.range 8).mapM (fun col => renderCell b wt bt col row)
  pure (colorize "black" (toString (row + 1) ++ " ") ++ String.join cells ++
    "\n")
/-- The Display implementation for ChessBoard of board.rs: threat maps for
both sides, ranks printed top to bottom, file footer. -/
def renderBoard (b : ChessBoard) : Option String := do
  let wt ← b.get_threatened_map .White
  let bt ← b.get_threatened_map .Black
  let rows ← ((List.range 8).reverse).mapM (renderRow b wt bt)
  pure (String.join rows ++ "  " ++ colorize "black" "a b c d e f g h" ++ "\n")
/-- get_board_state_hash of board.rs hashes the Display rendering with
DefaultHasher.  Equal renderings give equal hashes, and every claim about
the hash is an equality of hashes of boards, so the rendered string itself
models the hash value. -/
def ChessBoard.get_board_state_hash (b : ChessBoard) : Option String :=
  renderBoard b
/-- record_board_state of board.rs: bump the repetition count of the
current position hash (HashMap entry().or_default() then increment). -/
def ChessBoard.record_board_state (b : ChessBoard) : Option ChessBoard := do
  let h ← b.get_board_state_hash
  if b.board_state_counts.any (fun e => e.fst == h) then
    let bumped := b.board_state_counts.map
      (fun e => if e.fst == h then (e.fst, e.snd + 1) else e)
    pure { b with board_state_counts := bumped }
  else
    pure { b with board_state_counts := b.board_state_counts ++ [(h, 1)] }
/-- perform_move_and_record of board.rs: flip the turn to the opposite of
the origin piece's side (unwrap panics on an empty origin), apply, record
the position hash, and append to the move history. -/
def ChessBoard.perform_move_and_record (b : ChessBoard) (m : ChessMove) :
    Option ChessBoard := do
  let pOpt ← b.get_square_by_position m.from_square
  let p ← pOpt
  let b1 := { b with state := { b.state with current_turn := p.side.not } }
  let b2 ← b1.perform_move m
  let b3 ← b2.record_board_state
  pure { b3 with move_list := b3.move_list ++ [m] }
/-- ChessBoard::new of board.rs: the standard initial setup with default
flags (all castling rights held, White to move). -/
def ChessBoard.new : ChessBoard :=
  { squares :=
      [[some ⟨(0, 0), .White, .Rook⟩, some ⟨(0, 1), .White, .Pawn⟩,
        none, none, none, none,
        some ⟨(0, 6), .Black, .Pawn⟩, some ⟨(0, 7), .Black, .Rook⟩],
       [some ⟨(1, 0), .White, .Knight⟩, some ⟨(1, 1), .White, .Pawn⟩,
        none, none, none, none,
        some ⟨(1, 6), .Black, .Pawn⟩, some ⟨(1, 7), .Black, .Knight⟩],
       [some ⟨(2, 0), .White, .Bishop⟩, some ⟨(2, 1), .White, .Pawn⟩,
        none, none, none, none,
        some ⟨(2, 6), .Black, .Pawn⟩, some ⟨(2, 7), .Black, .Bishop⟩],
       [some ⟨(3, 0), .White, .Queen⟩, some ⟨(3, 1), .White, .Pawn⟩,
        none, none, none, none,
        some ⟨(3, 6), .Black, .Pawn⟩, some ⟨(3, 7), .Black, .Queen⟩],
       [some ⟨(4, 0), .White, .King⟩, some ⟨(4, 1), .White, .Pawn⟩,
        none, none, none, none,
        some ⟨(4, 6), .Black, .Pawn⟩, some ⟨(4, 7), .Black, .King⟩],
       [some ⟨(5, 0), .White, .Bishop⟩, some ⟨(5, 1), .White, .Pawn⟩,
        none, none, none, none,
        some ⟨(5, 6), .Black, .Pawn⟩, some ⟨(5, 7), .Black, .Bishop⟩],
       [some ⟨(6, 0), .White, .Knight⟩, some ⟨(6, 1), .White, .Pawn⟩,
        none, none, none, none,
        some ⟨(6, 6), .Black, .Pawn⟩, some ⟨(6, 7), .Black, .Knight⟩],
       [some ⟨(7, 0), .White, .Rook⟩, some ⟨(7, 1), .White, .Pawn⟩,
        none, none, none, none,
        some ⟨(7, 6), .Black, .Pawn⟩, some ⟨(7, 7), .Black, .Rook⟩]]
    state := BoardStateFlags.default
    board_state_counts := []
    move_list := [] }
/-- ChessBoard::new_with_squares of board.rs. -/
def ChessBoard.new_with_squares (setup : List (List (Option ChessPiece))) :
    ChessBoard :=
  { squares := setup
    state := BoardStateFlags.default
    board_state_counts := []
    move_list := [] }
/-- The material-and-repetition tail of is_game_over, reached when the
side to move still has legal moves.  The unwrap calls on the find results
panic (none) when a two-piece side holds two kings. -/
def ChessBoard.isGameOverTail (b : ChessBoard) : Option (Option GameEnd) :=
  let white_pieces := b.get_all_pieces .White
  let black_pieces := b.get_all_pieces .Black
  let fallthrough : Option (Option GameEnd) :=
    if b.board_state_counts.any (fun e => e.snd == 3) then
      some (some (.Draw "Draw by repetition"))
    else some none
  if white_pieces.length = 1 ∧ black_pieces.length = 1 then
    some (some (.Draw "Stalemate"))
  else if white_pieces.length = 1 then
    if black_pieces.length = 2 then
      match black_pieces.find? (fun p => !(p.piece_type == .King)) with
      | none => none
      | some p =>
        if p.get_material = 3 then some (some (.Draw "Insufficient material"))
        else fallthrough
    else if black_pieces.length = 3 then
      if (((black_pieces.filter (fun p => !(p.piece_type == .King))).filter
          (fun p => p.piece_type == .Knight)).get? 1).isSome then
        some (some (.Draw "Insufficient material"))
      else fallthrough
    else fallthrough
  else if black_pieces.length = 1 then
    if white_pieces.length = 2 then
      match white_pieces.find? (fun p => !(p.piece_type == .King)) with
      | none => none
      | some p =>
        if p.get_material = 3 then some (some (.Draw "Insufficient material"))
        else fallthrough
    else if white_pieces.length = 3 then
      if (((white_pieces.filter (fun p => !(p.piece_type == .King))).filter
          (fun p => p.piece_type == .Knight)).get? 1).isSome then
        some (some (.Draw "Insufficient material"))
      else fallthrough
    else fallthrough
  else if white_pieces.length = 2 ∧ black_pieces.length = 2 then
    match white_pieces.find? (fun p => !(p.piece_type == .King)) with
    | none => none
    | some wp =>
      if wp.get_material = 3 then
        match black_pieces.find? (fun p => !(p.piece_type == .King)) with
        | none => none
        | some bp =>
          if bp.get_material = 3 then
            some (some (.Draw "Insufficient material"))
          else fallthrough
      else fallthrough
  else fallthrough
/-- is_game_over of board.rs: check/no-move outcomes for the side to move
first, then insufficient material, then draw by repetition. -/
def ChessBoard.is_game_over (b : ChessBoard) (current_turn : Side) :
    Option (Option GameEnd) :=
  match current_turn with
  | .White => do
    let white_is_checked ← b.is_checked .White
    let white_moves ← b.get_all_moves .White
    if white_is_checked && white_moves.isEmpty then
      pure (some (.BlackVictory "Checkmate"))
    else if white_moves.isEmpty then
      pure (some (.Draw "White has no valid moves"))
    else b.isGameOverTail
  | .Black => do
    let black_is_checked ← b.is_checked .Black
    let black_moves ← b.get_all_moves .Black
    if black_is_checked && black_moves.isEmpty then
      pure (some (.WhiteVictory "Checkmate"))
    else if black_moves.isEmpty then
      pure (some (.Draw "Black has no valid moves"))
    else b.isGameOverTail
/-- Rust str::split with a one-character separator (the two uses in the
parser are " " and "/"): every occurrence separates, empty pieces are
kept, and the empty string yields one empty piece.  This matches
String.splitOn but is structurally recursive, so it evaluates inside the
kernel. -/
def splitOnChar (sep : Char) : List Char → List (List Char)
  | [] => [[]]
  | c :: rest =>
    if c = sep then [] :: splitOnChar sep rest
    else
      match splitOnChar sep rest with
      | h :: t => (c :: h) :: t
      | [] => [[c]]
/-- String-valued wrapper around splitOnChar. -/
def rustSplit (sep : Char) (s : String) : List String :=
  (splitOnChar sep s.data).map String.mk
/-- Rust's char::to_lowercase (first character of the mapping) restricted
to the inputs whose lowercase form could matter to the FEN parser: plain
ASCII lowering, plus the Kelvin sign U+212A which Unicode lowercases to
'k'.  No other code point lowercases to one of p, r, n, b, k, q. -/
def rustCharLower (c : Char) : Char :=
  if c = Char.ofNat 0x212A then 'k' else c.toLower
/-- The piece-letter match of from_forsyth_edwards (after lowercasing). -/
def pieceTypeOfChar (c : Char) : Option PieceType :=
  match rustCharLower c with
  | 'p' => some .Pawn
  | 'r' => some .Rook
  | 'n' => some .Knight
  | 'b' => some .Bishop
  | 'k' => some .King
  | 'q' => some .Queen
  | _ => none
/-- Writing one parsed piece into the placement grid under construction
(indices are in range by the parser's checks; the grid is 8 x 8). -/
def gridSet (squares : List (List (Option ChessPiece))) (c r : Nat)
    (v : Option ChessPiece) : List (List (Option ChessPiece)) :=
  match squares.get? c with
  | some colL => squares.set c (colL.set r v)
  | none => squares
/-- The character loop of from_forsyth_edwards over one placement rank:
reject once the running column passes 7, expand digits (rejecting runs
that would pass 8 columns), and place recognized letters. -/
def parsePlacementRow :
    List Char → Nat → Nat → List (List (Option ChessPiece)) →
    Except ChessError (List (List (Option ChessPiece)))
  | [], _, _, squares => .ok squares
  | c :: rest, cur_col, cur_row, squares =>
    if cur_col > 7 then
      .error (.InvalidState
        "FEN position string has more than 8 squares worth of piece info")
    else if 48 ≤ c.toNat ∧ c.toNat ≤ 57 then
      let num_empty := c.toNat - 48
      if cur_col + num_empty > 8 then
        .error (.InvalidState
          "FEN position string says there's more empty squares than possibly exist")
      else parsePlacementRow rest (cur_col + num_empty) cur_row squares
    else
      let piece_side := if c.toNat ≥ 97 then Side.Black else Side.White
      match pieceTypeOfChar c with
      | none =>
        .error (.InvalidState
          "FEN could not be parsed because character isn't recognized")
      | some piece_type =>
        parsePlacementRow rest (cur_col + 1) cur_row
          (gridSet squares cur_col cur_row
            (some ⟨(cur_col, cur_row), piece_side, piece_type⟩))
/-- The rank loop of from_forsyth_edwards: ranks arrive top (row 7) first;
cur_row decrements after each rank except at 0. -/
def parsePlacementRows :
    List String → Nat → List (List (Option ChessPiece)) →
    Except ChessError (List (List (Option ChessPiece)))
  | [], _, squares => .ok squares
  | row_str :: rest, cur_row, squares => do
    let squares' ← parsePlacementRow row_str.data 0 cur_row squares
    parsePlacementRows rest (if cur_row ≠ 0 then cur_row - 1 else cur_row)
      squares'
/-- The all-empty 8 x 8 grid the parser starts from. -/
def emptyGrid : List (List (Option ChessPiece)) :=
  List.replicate 8 (List.replicate 8 none)
/-- usize::from_str as the halfmove/fullmove fields use it: an optional
leading '+' followed by at least one ASCII digit (overflow, which Rust
would reject, is ignored; no claim exercises 20-digit clocks). -/
def rustParseUsize (s : String) : Option Nat :=
  let cs := match s.data with
    | '+' :: rest => rest
    | cs => cs
  if cs.isEmpty then none
  else if cs.all (fun c => 48 ≤ c.toNat ∧ c.toNat ≤ 57) then
    some (cs.foldl (fun acc c => acc * 10 + (c.toNat - 48)) 0)
  else none
/-- The castling-rights loop of from_forsyth_edwards. -/
def applyCastlingChars :
    List Char → BoardStateFlags → Except ChessError BoardStateFlags
  | [], st => .ok st
  | c :: rest, st =>
    match c with
    | 'K' => applyCastlingChars rest { st with white_castle_kingside := true }
    | 'Q' => applyCastlingChars rest { st with white_castle_queenside := true }
    | 'k' => applyCastlingChars rest { st with black_castle_kingside := true }
    | 'q' => applyCastlingChars rest { st with black_castle_queenside := true }
    | _ =>
      .error (.InvalidState
        "FEN string castling rights has invalid character")
/-- from_forsyth_edwards of board.rs.  The parser deliberately does not
validate chess semantics (no king required per side).  The two branches
marked unreachable correspond to Rust unwraps that cannot fire: a 1-byte
string has a first character, and name_to_index_pair never panics. -/
def ChessBoard.from_forsyth_edwards (fen_string : String) :
    Except ChessError ChessBoard :=
  match rustSplit ' ' fen_string with
  | [f0, f1, f2, f3, f4, f5] =>
    if [f0, f1, f2, f3, f4, f5].any String.isEmpty then
      .error (.InvalidState
        "FEN string contains an empty substring, which is invalid")
    else
      let rows_str := rustSplit '/' f0
      if rows_str.length ≠ 8 then
        .error (.InvalidState
          "FEN string does not contain 8 rows of position info")
      else do
        let squares ← parsePlacementRows rows_str 7 emptyGrid
        let active_side ←
          (if f1.utf8ByteSize ≠ 1 then
            .error (.InvalidState
              "FEN string active color substring isn't a single character")
          else
            match f1.data with
            | c :: _ =>
              if c = 'w' then .ok Side.White
              else if c = 'b' then .ok Side.Black
              else .error (.InvalidState "FEN string active color is invalid")
            | [] => .error (.InvalidState "unreachable"))
        let st0 : BoardStateFlags :=
          { white_castle_queenside := false
            white_castle_kingside := false
            black_castle_queenside := false
            black_castle_kingside := false
            en_passant_column := none
            current_turn := active_side }
        let st1 ←
          (if f2 = "-" then .ok st0 else applyCastlingChars f2.data st0)
        let st2 ←
          (if f3 = "-" then .ok st1
          else
            match name_to_index_pair f3 with
            | some (.ok (col, _row)) =>
              .ok { st1 with en_passant_column := some col }
            | some (.error _) =>
              .error (.InvalidState
                "FEN string EnPassant target square is invalid")
            | none => .error (.InvalidState "unreachable"))
        let _halfmove ←
          (match rustParseUsize f4 with
          | some n => Except.ok n
          | none =>
            .error (.InvalidState
              "FEN string halfmove clock cannot be parsed as a number"))
        let _fullmove ←
          (match rustParseUsize f5 with
          | some n => Except.ok n
          | none =>
            .error (.InvalidState
              "FEN string fullmove clock cannot be parsed as a number"))
        .ok { squares := squares
              state := st2
              board_state_counts := []
              move_list := [] }
  | parts =>
    .error (.InvalidState
      ("FEN string must have all 6 components, only had " ++
        toString parts.length))
/-- Modelled from the spec: the character emitted for one piece by
to_forsyth_edwards comes from an impl From ChessPiece for char that is not
under src/ in the snapshot (only its caller p.into() is).  Per the spec,
each occupied square emits one letter per kind, uppercase for White and
lowercase for Black. -/
def pieceFenChar (p : ChessPiece) : Char :=
  match p.side, p.piece_type with
  | .White, .Pawn => 'P'
  | .White, .Rook => 'R'
  | .White, .Knight => 'N'
  | .White, .Bishop => 'B'
  | .White, .Queen => 'Q'
  | .White, .King => 'K'
  | .Black, .Pawn => 'p'
  | .Black, .Rook => 'r'
  | .Black, .Knight => 'n'
  | .Black, .Bishop => 'b'
  | .Black, .Queen => 'q'
  | .Black, .King => 'k'
/-- The inner column loop of to_forsyth_edwards for one output rank,
carrying the empty-run counter. -/
def fenRowOut (b : ChessBoard) (row : Nat) :
    List Nat → Nat → Option String
  | [], empties =>
    some (if empties > 0 then String.singleton (Char.ofNat (48 + empties))
      else "")
  | col :: rest, empties => do
    let s ← b.get_square_by_index col (7 - row)
    match s with
    | some p => do
      let tail ← fenRowOut b row rest 0
      pure ((if empties > 0 then String.singleton (Char.ofNat (48 + empties))
        else "") ++ String.singleton (pieceFenChar p) ++ tail)
    | none => fenRowOut b row rest (empties + 1)
/-- to_forsyth_edwards of board.rs: placement from rank 8 down, side to
move, castling rights in KQkq order (or "-"), en-passant target square (a
panicking unwrap if the stored column is out of range), and the constant
clock fields "0 0". -/
def ChessBoard.to_forsyth_edwards (b : ChessBoard) : Option String := do
  let rowStrings ← (List.range 8).mapM (fun row => fenRowOut b row
    (List.range 8) 0)
  let piece_placement := String.intercalate "/" rowStrings
  let active_side := match b.state.current_turn with
    | .White => "w"
    | .Black => "b"
  let castling_ability :=
    (if b.state.white_castle_kingside then "K" else "") ++
    (if b.state.white_castle_queenside then "Q" else "") ++
    (if b.state.black_castle_kingside then "k" else "") ++
    (if b.state.black_castle_queenside then "q" else "")
  let castling_ability :=
    if castling_ability.isEmpty then "-" else castling_ability
  let en_passant_sqr ←
    (match b.state.en_passant_column with
    | some c =>
      (match b.state.current_turn.not with
      | .White =>
        (match index_pair_to_name c 2 with
        | .ok n => some n
        | .error _ => none)
      | .Black =>
        (match index_pair_to_name c 5 with
        | .ok n => some n
        | .error _ => none))
    | none => some "-")
  pure (piece_placement ++ " " ++ active_side ++ " " ++ castling_ability ++
    " " ++ en_passant_sqr ++ " 0 0")
/-- The board a FEN string parses to (falling back to the standard board;
every use is paired with a proof that parsing succeeded). -/
def boardOfFen (s : String) : ChessBoard :=
  match ChessBoard.from_forsyth_edwards s with
  | .ok b => b
  | .error _ => ChessBoard.new
/-- The queenside-castle position of claim C2 (also the repository's own
test fen_string_white_queen_castle). -/
def c2Fen : String :=
  "2r1kb1r/p1p1p1pp/2p1p3/3n2B1/2NP4/2P2P1b/PP3P1P/R3K2R w KQk - 0 0"
/-- The board parsed from c2Fen. -/
def c2Board : ChessBoard := boardOfFen c2Fen
/-- The white king standing on e1 of c2Board. -/
def c2King : ChessPiece := ⟨(4, 0), .White, .King⟩
/-- The Castle move the generator actually offers on c2Board. -/
def c2CastleMove : ChessMove := mkMove (4, 0) (1, 0) .Castle none
/-- c2Board after applying c2CastleMove. -/
def c2After : ChessBoard :=
  (c2Board.perform_move c2CastleMove).getD c2Board
/-- The stale-kingside-flag position of claim C3: the repository's own
regression test fen_string_black_cannot_castle_h8_missing_rook. -/
def c3Fen : String := "1r2k3/7R/1p1p4/2pPn2p/p1P2p2/P1P5/2KN1P2/8 b k - 0 0"
/-- The board parsed from c3Fen: Black still holds the kingside flag but
the h8 corner is empty. -/
def c3Board : ChessBoard := boardOfFen c3Fen
/-- The standard-position FEN string of claim C5. -/
def stdFen : String :=
  "rnbqkbnr/pppppppp/8/8/8/8/PPPPPPPP/RNBQKBNR w KQkq - 0 0"
/-- Number of board columns one placement character accounts for: a digit
consumes its value in empty columns, any other character one column. -/
def fenCharWidth (c : Char) : Nat :=
  if 48 ≤ c.toNat ∧ c.toNat ≤ 57 then c.toNat - 48 else 1
/-- Number of board columns a placement rank group describes. -/
def fenRowWidth (cs : List Char) : Nat :=
  (cs.map fenCharWidth).sum
/-- A placement character the parser accepts: a digit or a recognized
piece letter. -/
def recognizedFenChar (c : Char) : Bool :=
  decide (48 ≤ c.toNat ∧ c.toNat ≤ 57) || (pieceTypeOfChar c).isSome
/-- A minor piece of the insufficient-material rule. -/
def IsMinor (p : ChessPiece) : Prop :=
  p.piece_type = .Bishop ∨ p.piece_type = .Knight
/-- A legal two-knight mate position: White holds only the king (a8),
Black holds king (b6) and two knights (c7, d7); White to move is
checkmated. -/
def c6MateFen : String := "K7/2nn4/1k6/8/8/8/8/8 w - - 0 0"
/-- The board parsed from c6MateFen. -/
def c6MateBoard : ChessBoard := boardOfFen c6MateFen
/-- Lone king versus lone king. -/
def c6KkBoard : ChessBoard := boardOfFen "7k/8/8/8/8/8/8/K7 w - - 0 0"
/-- Lone white king versus black king and knight. -/
def c6KMinBoard : ChessBoard := boardOfFen "7k/8/8/8/3n4/8/8/K7 w - - 0 0"
/-- White king and knight versus lone black king. -/
def c6MinKBoard : ChessBoard := boardOfFen "7K/8/8/8/3N4/8/8/k7 w - - 0 0"
/-- Lone white king versus black king and two knights (no mate here). -/
def c6KnnBoard : ChessBoard := boardOfFen "7k/8/8/8/3nn3/8/8/K7 w - - 0 0"
/-- White king and two knights versus lone black king. -/
def c6NnkBoard : ChessBoard := boardOfFen "7K/8/8/8/3NN3/8/8/k7 w - - 0 0"
/-- King and bishop versus king and knight. -/
def c6MinEachBoard : ChessBoard := boardOfFen "7k/8/8/8/2Bn4/8/8/K7 w - - 0 0"
/-- Lone white king versus black king and rook. -/
def c6KrBoard : ChessBoard := boardOfFen "7k/8/8/3r4/8/8/8/K7 w - - 0 0"
/-- White king and rook versus lone black king. -/
def c6RkBoard : ChessBoard := boardOfFen "7K/8/8/3R4/8/8/8/k7 w - - 0 0"
/-- after arises from before by (possibly) clearing castling-rights flags:
any flag still held afterwards was held before, and the non-flag fields are
untouched. -/
def flagsOnlyCleared (after before : BoardStateFlags) : Prop :=
  (after.white_castle_queenside = true →
    before.white_castle_queenside = true) ∧
  (after.white_castle_kingside = true →
    before.white_castle_kingside = true) ∧
  (after.black_castle_queenside = true →
    before.black_castle_queenside = true) ∧
  (after.black_castle_kingside = true →
    before.black_castle_kingside = true)
/-- The board after the Promotion-tagged king move of the C9
counterexample. -/
def c9After : ChessBoard :=
  (ChessBoard.new.perform_move (mkMove (4, 0) (4, 1) .Promotion
    none)).getD ChessBoard.new
/-- The standard board after the knight move b1-a3 (exercises the
monotonicity conjunct). -/
def c9MonoAfter : ChessBoard :=
  (ChessBoard.new.perform_move (mkMove (1, 0) (2, 2) .Standard
    none)).getD ChessBoard.new
/-- A one-pawn board for exercising perform_move_and_record cheaply. -/
def c9RecBoard : ChessBoard := boardOfFen "8/8/8/8/8/8/P7/8 w - - 0 0"
/-- c9RecBoard after recording a pawn push. -/
def c9RecAfter : ChessBoard :=
  (c9RecBoard.perform_move_and_record (mkMove (0, 1) (0, 2) .Standard
    none)).getD c9RecBoard
/-- The standard board after a Standard king move e1-e2. -/
def c9KingAfter : ChessBoard :=
  (ChessBoard.new.perform_move (mkMove (4, 0) (4, 1) .Standard
    none)).getD ChessBoard.new
/-- The standard board after the a1 rook leaves its corner. -/
def c9RookAfter : ChessBoard :=
  (ChessBoard.new.perform_move (mkMove (0, 0) (0, 2) .Standard
    none)).getD ChessBoard.new
/-- Whether the grid holds a King of the given side (the piece the
is_checked search looks for). -/
def hasKing (b : ChessBoard) (side : Side) : Bool :=
  b.squares.any (fun colL => colL.any (kingSquarePred side))
/-- The kingless board holding one white pawn with moves available. -/
def c10PawnBoard : ChessBoard := boardOfFen "8/8/8/8/8/8/P7/8 w - - 0 0"
/-- The completely empty board (accepted by the FEN parser). -/
def c10EmptyBoard : ChessBoard := boardOfFen "8/8/8/8/8/8/8/8 w - - 0 0"

/-- Every move surviving the legality filter was simulated and found not to
leave the mover in check. -/
theorem filterSelfCheck_mem (board : ChessBoard) :
    ∀ (l ms : List ChessMove), filterSelfCheck board l = some ms →
    ∀ m ∈ ms, move_would_cause_self_check board m = some false := by
  intro l
  induction l with
  | nil =>
    intro ms h m hm
    simp only [filterSelfCheck, Option.some.injEq] at h
    subst h
    cases hm
  | cons x rest ih =>
    intro ms h m hm
    simp only [filterSelfCheck] at h
    cases hx : move_would_cause_self_check board x with
    | none => rw [hx] at h; cases h
    | some bx =>
      rw [hx] at h
      cases bx with
      | true => exact ih ms h m hm
      | false =>
        rcases Option.map_eq_some'.mp h with ⟨ms', hms', hcons⟩
        subst hcons
        rcases List.mem_cons.mp hm with hmx | hmem
        · subst hmx; exact hx
        · exact ih ms' hms' m hmem
/-- C1: for every board and every piece, every move in the list returned by
ChessPiece::get_moves is such that applying it with perform_move to (a
clone of) that board succeeds and yields a board on which the side of the
piece standing on the move's origin square is not in check. -/
theorem c1_get_moves_no_self_check (p : ChessPiece) (board : ChessBoard)
    (ms : List ChessMove) (m : ChessMove)
    (h : p.get_moves board = some ms) (hm : m ∈ ms) :
    ∃ (board' : ChessBoard) (mover : ChessPiece),
      board.perform_move m = some board' ∧
      board.get_square_by_position m.from_square = some (some mover) ∧
      board'.is_checked mover.side = some false := by
  simp only [ChessPiece.get_moves, bind, Option.bind_eq_some] at h
  rcases h with ⟨unfiltered, _hunf, hfilter⟩
  have hchk := filterSelfCheck_mem board unfiltered ms hfilter m hm
  simp only [move_would_cause_self_check, bind, Option.bind_eq_some] at hchk
  rcases hchk with ⟨board', hperf, hrest⟩
  rcases hrest with ⟨pOpt, hget, hrest⟩
  rcases hrest with ⟨mover, hmover, hchk⟩
  subst hmover
  exact ⟨board', mover, hperf, hget, hchk⟩
/-- C2 counterexample: on the board parsed from the claimed FEN string the
White king's legal-move list is produced without panicking, yet it contains
no Castle move whose destination column is 2 — refuting the claim, which
asserts such a move exists. -/
theorem c2_counterexample :
    (ChessBoard.from_forsyth_edwards c2Fen).isOk = true ∧
    (c2King.get_moves c2Board).isSome = true ∧
    ∀ m ∈ (c2King.get_moves c2Board).getD [],
      ¬(m.move_type = .Castle ∧ m.destination.fst = 2) := by decide
/-- C2 amended: on the board parsed from the FEN string the White king has
a legal Castle move whose destination column is 1; applying it with
perform_move puts the King on (column 1, row 0) and the Rook on (column 2,
row 0), and White's queenside castling-rights flag is false afterwards. -/
theorem c2_amended_castle_to_column_one :
    (ChessBoard.from_forsyth_edwards c2Fen).isOk = true ∧
    c2CastleMove ∈ (c2King.get_moves c2Board).getD [] ∧
    c2CastleMove.move_type = .Castle ∧ c2CastleMove.destination.fst = 1 ∧
    (c2Board.perform_move c2CastleMove).isSome = true ∧
    c2After.get_square_by_index 1 0 = some (some ⟨(1, 0), .White, .King⟩) ∧
    c2After.get_square_by_index 2 0 = some (some ⟨(2, 0), .White, .Rook⟩) ∧
    c2After.state.white_castle_queenside = false := by decide
/-- C3, evaluated at the failing input: the kingside flag is set and the
corner square h8 is empty, yet get_moves for the black king does not
return a Castle-free list as the claim (and the repository's own
regression test) requires — it panics, because the corner-rook
verification is skipped when the corner is empty, the Castle candidate is
generated anyway, and simulating it unwraps the missing rook. -/
theorem c3_stale_flag_code_bug :
    (ChessBoard.from_forsyth_edwards c3Fen).isOk = true ∧
    c3Board.state.black_castle_kingside = true ∧
    c3Board.get_square_by_index 7 7 = some none ∧
    ChessPiece.get_moves ⟨(4, 7), .Black, .King⟩ c3Board = none := by decide
/-- C5: serializing a freshly constructed standard board yields exactly the
standard FEN string; parsing that string succeeds (indeed produces the
standard board itself), so its board-state hash equals the hash of a
freshly constructed board. -/
theorem c5_fen_round_trip :
    ChessBoard.new.to_forsyth_edwards = some stdFen ∧
    ChessBoard.from_forsyth_edwards stdFen = .ok ChessBoard.new ∧
    (ChessBoard.from_forsyth_edwards stdFen).map
      ChessBoard.get_board_state_hash =
      .ok ChessBoard.new.get_board_state_hash := by
  have h : ChessBoard.from_forsyth_edwards stdFen = .ok ChessBoard.new := by
    decide
  exact ⟨by decide, h, by rw [h]; rfl⟩
/-- C1 witness: the standard board's b1 knight offers the move to a3, and
instantiating the theorem there produces the simulated board and mover
with the no-self-check verdict. -/
theorem c1_witness :
    ∃ (board' : ChessBoard) (mover : ChessPiece),
      ChessBoard.new.perform_move (mkMove (1, 0) (0, 2) .Standard none) =
        some board' ∧
      ChessBoard.new.get_square_by_position (1, 0) = some (some mover) ∧
      board'.is_checked mover.side = some false :=
  c1_get_moves_no_self_check ⟨(1, 0), .White, .Knight⟩ ChessBoard.new
    [mkMove (1, 0) (0, 2) .Standard none, mkMove (1, 0) (2, 2) .Standard none]
    (mkMove (1, 0) (0, 2) .Standard none) (by decide) (by decide)
/-- The rank-group loop rejects any group whose running column total would
pass 8 and any unrecognized letter. -/
theorem parsePlacementRow_err :
    ∀ (cs : List Char) (cur_col cur_row : Nat)
      (squares : List (List (Option ChessPiece))), cur_col ≤ 8 →
    (8 < cur_col + fenRowWidth cs ∨
      ∃ c ∈ cs, recognizedFenChar c = false) →
    (parsePlacementRow cs cur_col cur_row squares).isOk = false := by
  intro cs
  induction cs with
  | nil =>
    intro cur_col cur_row squares hle hbad
    rcases hbad with hw | ⟨c, hc, _⟩
    · simp [fenRowWidth] at hw; omega
    · cases hc
  | cons c rest ih =>
    intro cur_col cur_row squares hle hbad
    by_cases h7 : cur_col > 7
    · simp [parsePlacementRow, h7, Except.isOk, Except.toBool]
    · by_cases hdig : 48 ≤ c.toNat ∧ c.toNat ≤ 57
      · by_cases hover : cur_col + (c.toNat - 48) > 8
        · simp [parsePlacementRow, h7, hdig, hover, Except.isOk, Except.toBool]
        · have hrec : (parsePlacementRow rest (cur_col + (c.toNat - 48))
              cur_row squares).isOk = false := by
            apply ih _ cur_row squares (by omega)
            rcases hbad with hw | ⟨x, hx, hxr⟩
            · left
              have : fenRowWidth (c :: rest) =
                  (c.toNat - 48) + fenRowWidth rest := by
                simp [fenRowWidth, fenCharWidth, hdig]
              omega
            · rcases List.mem_cons.mp hx with hxc | hxm
              · exfalso
                subst hxc
                simp [recognizedFenChar, hdig] at hxr
              · exact Or.inr ⟨x, hxm, hxr⟩
          simpa [parsePlacementRow, h7, hdig, hover] using hrec
      · cases hpt : pieceTypeOfChar c with
        | none => simp [parsePlacementRow, h7, hdig, hpt, Except.isOk, Except.toBool]
        | some pt =>
          have hrec : (parsePlacementRow rest (cur_col + 1) cur_row
              (gridSet squares cur_col cur_row
                (some ⟨(cur_col, cur_row),
                  if c.toNat ≥ 97 then Side.Black else Side.White, pt⟩))).isOk
              = false := by
            apply ih _ cur_row _ (by omega)
            rcases hbad with hw | ⟨x, hx, hxr⟩
            · left
              have : fenRowWidth (c :: rest) = 1 + fenRowWidth rest := by
                simp [fenRowWidth, fenCharWidth, hdig]
              omega
            · rcases List.mem_cons.mp hx with hxc | hxm
              · exfalso
                subst hxc
                simp [recognizedFenChar, hdig, hpt] at hxr
              · exact Or.inr ⟨x, hxm, hxr⟩
          simpa [parsePlacementRow, h7, hdig, hpt] using hrec
/-- The rank loop rejects the placement section as soon as any rank group
is over-wide or contains an unrecognized letter. -/
theorem parsePlacementRows_err :
    ∀ (rows : List String) (cur_row : Nat)
      (squares : List (List (Option ChessPiece))),
    (∃ row ∈ rows, 8 < fenRowWidth row.data ∨
      ∃ c ∈ row.data, recognizedFenChar c = false) →
    (parsePlacementRows rows cur_row squares).isOk = false := by
  intro rows
  induction rows with
  | nil =>
    intro cur_row squares hbad
    rcases hbad with ⟨row, hrow, _⟩
    cases hrow
  | cons r rest ih =>
    intro cur_row squares hbad
    rcases hbad with ⟨row, hrow, hrbad⟩
    cases hfirst : parsePlacementRow r.data 0 cur_row squares with
    | error e =>
      simp only [parsePlacementRows, hfirst]
      rfl
    | ok squares' =>
      rcases List.mem_cons.mp hrow with hr | hmem
      · exfalso
        subst hr
        have herr := parsePlacementRow_err row.data 0 cur_row squares
          (by omega)
          (by
            rcases hrbad with hw | hx
            · exact Or.inl (by omega)
            · exact Or.inr hx)
        rw [hfirst] at herr
        simp [Except.isOk, Except.toBool] at herr
      · have hrest := ih (if cur_row ≠ 0 then cur_row - 1 else cur_row)
          squares' ⟨row, hmem, hrbad⟩
        simpa [parsePlacementRows, hfirst, Except.bind] using hrest
/-- C4 counterexample: a placement whose last rank group describes only 7
columns is accepted by from_forsyth_edwards, refuting the claim that every
rank summing to fewer than 8 columns is rejected. -/
theorem c4_counterexample :
    (rustSplit '/' "8/8/8/8/8/8/8/7").map (fun r => fenRowWidth r.data) =
      [8, 8, 8, 8, 8, 8, 8, 7] ∧
    (ChessBoard.from_forsyth_edwards "8/8/8/8/8/8/8/7 w - - 0 0").isOk =
      true := by decide
/-- C4 amended: from_forsyth_edwards rejects the input (an InvalidState
error, never success) whenever some rank group of the placement field
describes more than 8 columns or contains an unrecognized letter; rank
groups describing fewer than 8 columns are not checked and do not cause
rejection. -/
theorem c4_amended_overfull_or_unrecognized_rejected
    (fen f0 f1 f2 f3 f4 f5 : String)
    (hsplit : rustSplit ' ' fen = [f0, f1, f2, f3, f4, f5])
    (hbad : ∃ row ∈ rustSplit '/' f0,
      8 < fenRowWidth row.data ∨
      ∃ c ∈ row.data, recognizedFenChar c = false) :
    (ChessBoard.from_forsyth_edwards fen).isOk = false := by
  unfold ChessBoard.from_forsyth_edwards
  rw [hsplit]
  by_cases hempty : [f0, f1, f2, f3, f4, f5].any String.isEmpty
  · simp [hempty, Except.isOk, Except.toBool]
  · simp only [hempty, if_false, Bool.false_eq_true]
    by_cases hlen : (rustSplit '/' f0).length ≠ 8
    · simp [hlen, Except.isOk, Except.toBool]
    · have herr := parsePlacementRows_err (rustSplit '/' f0) 7 emptyGrid hbad
      cases hpr : parsePlacementRows (rustSplit '/' f0) 7 emptyGrid with
      | error e =>
        simp only [hlen, if_false, hpr, ite_false]
        rfl
      | ok squares =>
        rw [hpr] at herr
        simp [Except.isOk, Except.toBool] at herr
/-- C4 witness: the amended theorem applied to a six-field FEN string whose
first rank group starts with the unrecognized letter Z. -/
theorem c4_witness :
    (ChessBoard.from_forsyth_edwards "Z7/8/8/8/8/8/8/8 w - - 0 0").isOk =
      false :=
  c4_amended_overfull_or_unrecognized_rejected _ "Z7/8/8/8/8/8/8/8" "w" "-"
    "-" "0" "0" (by decide) (by decide)
/-- On a two-piece list holding a king and a minor piece (in either order)
the non-king search of is_game_over finds the minor piece, whose material
value is 3. -/
theorem find_nonking_king_minor (p q : ChessPiece)
    (h : (p.piece_type = .King ∧ IsMinor q) ∨
      (IsMinor p ∧ q.piece_type = .King)) :
    ∃ m, [p, q].find? (fun x => !(x.piece_type == .King)) = some m ∧
      m.get_material = 3 := by
  rcases h with ⟨hp, hq⟩ | ⟨hp, hq⟩
  · refine ⟨q, ?_, ?_⟩
    · rcases hq with hq | hq <;>
        simp [List.find?_cons, hp, hq]
    · rcases hq with hq | hq <;> simp [ChessPiece.get_material, hq]
  · refine ⟨p, ?_, ?_⟩
    · rcases hp with hp | hp <;>
        simp [List.find?_cons, hp]
    · rcases hp with hp | hp <;> simp [ChessPiece.get_material, hp]
/-- On a two-piece list holding a king and a rook (in either order) the
non-king search finds the rook, whose material value is 5. -/
theorem find_nonking_king_rook (p q : ChessPiece)
    (h : (p.piece_type = .King ∧ q.piece_type = .Rook) ∨
      (p.piece_type = .Rook ∧ q.piece_type = .King)) :
    ∃ m, [p, q].find? (fun x => !(x.piece_type == .King)) = some m ∧
      m.get_material = 5 := by
  rcases h with ⟨hp, hq⟩ | ⟨hp, hq⟩
  · exact ⟨q, by simp [List.find?_cons, hp, hq],
      by simp [ChessPiece.get_material, hq]⟩
  · exact ⟨p, by simp [List.find?_cons, hp],
      by simp [ChessPiece.get_material, hp]⟩
/-- A side whose pieces include exactly two knights passes the two-knight
test of is_game_over (filtering non-kings then knights leaves both). -/
theorem two_knights_test (l : List ChessPiece)
    (h : (l.filter (fun p => p.piece_type == .Knight)).length = 2) :
    (((l.filter (fun p => !(p.piece_type == .King))).filter
      (fun p => p.piece_type == .Knight)).get? 1).isSome = true := by
  have hff : (l.filter (fun p => !(p.piece_type == .King))).filter
      (fun p => p.piece_type == .Knight) =
      l.filter (fun p => p.piece_type == .Knight) := by
    rw [List.filter_filter]
    apply List.filter_congr
    intro x _
    cases hx : x.piece_type <;> simp [hx]
  rw [hff]
  rw [← Option.ne_none_iff_isSome]
  intro hnone
  rw [List.get?_eq_none, h] at hnone
  omega
/-- When the side to move is neither mated nor stalemated, is_game_over
reaches the material-and-repetition tail. -/
theorem is_game_over_eq_tail (b : ChessBoard) (t : Side)
    (hc : (b.is_checked t).isSome = true)
    (hm : (b.get_all_moves t).map List.isEmpty = some false) :
    b.is_game_over t = b.isGameOverTail := by
  rcases Option.isSome_iff_exists.mp hc with ⟨c, hcEq⟩
  rcases Option.map_eq_some'.mp hm with ⟨ms, hmsEq, hmsE⟩
  have hne : ms ≠ [] := by simpa using hmsE
  cases t <;>
    simp [ChessBoard.is_game_over, hcEq, hmsEq, hne]
/-- C6 amended: assuming the check test and move generation for the side
to move complete without panicking and that side still has a legal move
(so the checkmate and no-move outcomes, which take precedence, do not
fire), is_game_over returns the draw labelled Stalemate when both sides
hold only a king, returns the draw labelled Insufficient material for the
other three configurations (lone king versus king plus one minor piece,
lone king versus king plus exactly two knights, king plus one minor piece
each), and never returns the Insufficient material draw when one side
holds king plus rook against a lone king. -/
theorem c6_amended_insufficient_material (b : ChessBoard) (t : Side) :
    ((b.is_checked t).isSome = true →
      (b.get_all_moves t).map List.isEmpty = some false →
      ((((b.get_all_pieces .White).length = 1 ∧
          (b.get_all_pieces .Black).length = 1) →
        b.is_game_over t = some (some (.Draw "Stalemate"))) ∧
      (((b.get_all_pieces .White).length = 1 →
        ∀ p q, b.get_all_pieces .Black = [p, q] →
        ((p.piece_type = .King ∧ IsMinor q) ∨
          (IsMinor p ∧ q.piece_type = .King)) →
        b.is_game_over t = some (some (.Draw "Insufficient material")))) ∧
      (((b.get_all_pieces .Black).length = 1 →
        ∀ p q, b.get_all_pieces .White = [p, q] →
        ((p.piece_type = .King ∧ IsMinor q) ∨
          (IsMinor p ∧ q.piece_type = .King)) →
        b.is_game_over t = some (some (.Draw "Insufficient material")))) ∧
      (((b.get_all_pieces .White).length = 1 →
        (b.get_all_pieces .Black).length = 3 →
        ((b.get_all_pieces .Black).filter
          (fun p => p.piece_type == .Knight)).length = 2 →
        b.is_game_over t = some (some (.Draw "Insufficient material")))) ∧
      (((b.get_all_pieces .Black).length = 1 →
        (b.get_all_pieces .White).length = 3 →
        ((b.get_all_pieces .White).filter
          (fun p => p.piece_type == .Knight)).length = 2 →
        b.is_game_over t = some (some (.Draw "Insufficient material")))) ∧
      (∀ p q r s, b.get_all_pieces .White = [p, q] →
        b.get_all_pieces .Black = [r, s] →
        ((p.piece_type = .King ∧ IsMinor q) ∨
          (IsMinor p ∧ q.piece_type = .King)) →
        ((r.piece_type = .King ∧ IsMinor s) ∨
          (IsMinor r ∧ s.piece_type = .King)) →
        b.is_game_over t =
          some (some (.Draw "Insufficient material"))))) ∧
    (((b.get_all_pieces .White).length = 1 →
      ∀ p q, b.get_all_pieces .Black = [p, q] →
      ((p.piece_type = .King ∧ q.piece_type = .Rook) ∨
        (p.piece_type = .Rook ∧ q.piece_type = .King)) →
      b.is_game_over t ≠ some (some (.Draw "Insufficient material")))) ∧
    (((b.get_all_pieces .Black).length = 1 →
      ∀ p q, b.get_all_pieces .White = [p, q] →
      ((p.piece_type = .King ∧ q.piece_type = .Rook) ∨
        (p.piece_type = .Rook ∧ q.piece_type = .King)) →
      b.is_game_over t ≠ some (some (.Draw "Insufficient material")))) := by
  refine ⟨fun hc hm => ?_, ?_, ?_⟩
  · have htail := is_game_over_eq_tail b t hc hm
    refine ⟨?_, ?_, ?_, ?_, ?_, ?_⟩
    · rintro ⟨hw, hb⟩
      rw [htail]
      simp [ChessBoard.isGameOverTail, hw, hb]
    · intro hw p q hbp hshape
      rcases find_nonking_king_minor p q hshape with ⟨m, hfind, hmat⟩
      rw [htail]
      simp [ChessBoard.isGameOverTail, hw, hbp, hfind, hmat]
    · intro hb p q hwp hshape
      rcases find_nonking_king_minor p q hshape with ⟨m, hfind, hmat⟩
      rw [htail]
      simp [ChessBoard.isGameOverTail, hb, hwp, hfind, hmat]
    · intro hw hb3 hkn
      rw [htail]
      have hg := two_knights_test _ hkn
      simp only [ChessBoard.isGameOverTail, hw, hb3, hg]
      norm_num
    · intro hb hw3 hkn
      rw [htail]
      have hg := two_knights_test _ hkn
      simp only [ChessBoard.isGameOverTail, hb, hw3, hg]
      norm_num
    · intro p q r s hwp hbp hshw hshb
      rcases find_nonking_king_minor p q hshw with ⟨m, hfind, hmat⟩
      rcases find_nonking_king_minor r s hshb with ⟨m', hfind', hmat'⟩
      rw [htail]
      simp [ChessBoard.isGameOverTail, hwp, hbp, hfind, hmat, hfind', hmat']
  · intro hw p q hbp hshape
    rcases find_nonking_king_rook p q hshape with ⟨m, hfind, hmat⟩
    have htail : b.isGameOverTail ≠
        some (some (.Draw "Insufficient material")) := by
      simp only [ChessBoard.isGameOverTail, hw, hbp]
      simp [hfind, hmat]
      split <;> simp
    cases t <;> (
      simp only [ChessBoard.is_game_over]
      cases hic : b.is_checked _ with
      | none => simp
      | some c =>
        cases ham : b.get_all_moves _ with
        | none => simp
        | some ms =>
          simp only [Option.bind_some, Option.some_bind, bind, Option.bind]
          split
          · simp
          · split
            · simp
            · exact htail)
  · intro hb p q hwp hshape
    rcases find_nonking_king_rook p q hshape with ⟨m, hfind, hmat⟩
    have htail : b.isGameOverTail ≠
        some (some (.Draw "Insufficient material")) := by
      simp only [ChessBoard.isGameOverTail, hb, hwp]
      simp [hfind, hmat]
      split <;> simp
    cases t <;> (
      simp only [ChessBoard.is_game_over]
      cases hic : b.is_checked _ with
      | none => simp
      | some c =>
        cases ham : b.get_all_moves _ with
        | none => simp
        | some ms =>
          simp only [Option.bind_some, Option.some_bind, bind, Option.bind]
          split
          · simp
          · split
            · simp
            · exact htail)
/-- C6 counterexample: a position in the third insufficient-material
configuration (lone king versus king plus exactly two knights) for which
is_game_over returns a checkmate victory, not a draw outcome — the
checkmate branch is evaluated before the material rules, refuting the
claim as stated. -/
theorem c6_counterexample :
    (ChessBoard.from_forsyth_edwards c6MateFen).isOk = true ∧
    (c6MateBoard.get_all_pieces .White).length = 1 ∧
    (c6MateBoard.get_all_pieces .White).map ChessPiece.piece_type =
      [.King] ∧
    (c6MateBoard.get_all_pieces .Black).length = 3 ∧
    ((c6MateBoard.get_all_pieces .Black).filter
      (fun p => p.piece_type == .Knight)).length = 2 ∧
    c6MateBoard.is_game_over .White =
      some (some (.BlackVictory "Checkmate")) := by decide
/-- C6 witness: the amended theorem applied to one concrete board per
configuration (White to move, with legal moves available), each hypothesis
discharged by evaluation. -/
theorem c6_witness :
    c6KkBoard.is_game_over .White = some (some (.Draw "Stalemate")) ∧
    c6KMinBoard.is_game_over .White =
      some (some (.Draw "Insufficient material")) ∧
    c6MinKBoard.is_game_over .White =
      some (some (.Draw "Insufficient material")) ∧
    c6KnnBoard.is_game_over .White =
      some (some (.Draw "Insufficient material")) ∧
    c6NnkBoard.is_game_over .White =
      some (some (.Draw "Insufficient material")) ∧
    c6MinEachBoard.is_game_over .White =
      some (some (.Draw "Insufficient material")) ∧
    c6KrBoard.is_game_over .White ≠
      some (some (.Draw "Insufficient material")) ∧
    c6RkBoard.is_game_over .White ≠
      some (some (.Draw "Insufficient material")) := by
  refine ⟨?_, ?_, ?_, ?_, ?_, ?_, ?_, ?_⟩
  · exact (((c6_amended_insufficient_material c6KkBoard .White).1
      (by decide) (by decide)).1 ⟨by decide, by decide⟩)
  · exact ((c6_amended_insufficient_material c6KMinBoard .White).1
      (by decide) (by decide)).2.1 (by decide)
      ⟨(3, 3), .Black, .Knight⟩ ⟨(7, 7), .Black, .King⟩ (by decide)
      (Or.inr ⟨Or.inr rfl, rfl⟩)
  · exact ((c6_amended_insufficient_material c6MinKBoard .White).1
      (by decide) (by decide)).2.2.1 (by decide)
      ⟨(3, 3), .White, .Knight⟩ ⟨(7, 7), .White, .King⟩ (by decide)
      (Or.inr ⟨Or.inr rfl, rfl⟩)
  · exact ((c6_amended_insufficient_material c6KnnBoard .White).1
      (by decide) (by decide)).2.2.2.1 (by decide) (by decide) (by decide)
  · exact ((c6_amended_insufficient_material c6NnkBoard .White).1
      (by decide) (by decide)).2.2.2.2.1 (by decide) (by decide) (by decide)
  · exact ((c6_amended_insufficient_material c6MinEachBoard .White).1
      (by decide) (by decide)).2.2.2.2.2
      ⟨(0, 0), .White, .King⟩ ⟨(2, 3), .White, .Bishop⟩
      ⟨(3, 3), .Black, .Knight⟩ ⟨(7, 7), .Black, .King⟩
      (by decide) (by decide) (Or.inl ⟨rfl, Or.inl rfl⟩)
      (Or.inr ⟨Or.inr rfl, rfl⟩)
  · exact (c6_amended_insufficient_material c6KrBoard .White).2.1
      (by decide) ⟨(3, 4), .Black, .Rook⟩ ⟨(7, 7), .Black, .King⟩
      (by decide) (Or.inr ⟨rfl, rfl⟩)
  · exact (c6_amended_insufficient_material c6RkBoard .White).2.2
      (by decide) ⟨(3, 4), .White, .Rook⟩ ⟨(7, 7), .White, .King⟩
      (by decide) (Or.inr ⟨rfl, rfl⟩)
/-- Successful lookups certify in-range indices. -/
theorem get_square_some_bounds (b : ChessBoard) (c r : Nat)
    (o : Option ChessPiece)
    (h : b.get_square_by_index c r = some o) :
    ∃ colL, b.squares.get? c = some colL ∧ r < colL.length := by
  simp only [ChessBoard.get_square_by_index, Option.bind_eq_some] at h
  rcases h with ⟨colL, hcol, hrow⟩
  rcases List.get?_eq_some.mp hrow with ⟨hr, _⟩
  exact ⟨colL, hcol, hr⟩
/-- setSquare succeeds exactly on in-range cells, and the result only
replaces that cell. -/
theorem setSquare_eq_some (b : ChessBoard) (c r : Nat)
    (v : Option ChessPiece) (colL : List (Option ChessPiece))
    (h : b.squares.get? c = some colL) (hr : r < colL.length) :
    b.setSquare c r v =
      some { b with squares := b.squares.set c (colL.set r v) } := by
  unfold ChessBoard.setSquare
  rw [h]
  simp [hr]
/-- Everything setSquare returns differs from its input only in the
grid. -/
theorem setSquare_spec (b b' : ChessBoard) (c r : Nat)
    (v : Option ChessPiece) (h : b.setSquare c r v = some b') :
    b'.state = b.state ∧
    ∃ colL, b.squares.get? c = some colL ∧ r < colL.length ∧
      b'.squares = b.squares.set c (colL.set r v) := by
  unfold ChessBoard.setSquare at h
  cases hcol : b.squares.get? c with
  | none => rw [hcol] at h; simp at h
  | some colL =>
    rw [hcol] at h
    by_cases hr : r < colL.length
    · simp only [hr, if_true, Option.some.injEq] at h
      subst h
      exact ⟨rfl, colL, rfl, hr, rfl⟩
    · simp [hr] at h
/-- Replacing a cell keeps the grid well-formed. -/
theorem wf_setSquare (b b' : ChessBoard) (c r : Nat)
    (v : Option ChessPiece) (hwf : WellFormedGrid b)
    (h : b.setSquare c r v = some b') : WellFormedGrid b' := by
  rcases setSquare_spec b b' c r v h with ⟨_, colL, hcol, _, hsq⟩
  obtain ⟨hlen, hcols⟩ := hwf
  constructor
  · rw [hsq]; simpa using hlen
  · intro colL' hmem
    rw [hsq] at hmem
    rcases List.mem_or_eq_of_mem_set hmem with hmem' | heq
    · exact hcols _ hmem'
    · subst heq
      simpa using hcols colL (List.get?_mem hcol)
/-- On a well-formed grid every in-range write succeeds. -/
theorem setSquare_isSome_of_wf (b : ChessBoard) (c r : Nat)
    (v : Option ChessPiece) (hwf : WellFormedGrid b) (hc : c < 8)
    (hr : r < 8) : ∃ b', b.setSquare c r v = some b' := by
  obtain ⟨hlen, hcols⟩ := hwf
  have hc' : c < b.squares.length := by omega
  have hget := List.get?_eq_get hc'
  refine ⟨_, setSquare_eq_some b c r v _ hget ?_⟩
  have : (b.squares.get ⟨c, hc'⟩).length = 8 :=
    hcols _ (b.squares.get_mem c hc')
  omega
/-- C7 counterexample: a move whose origin square is occupied (the white
pawn on a2 of the standard board) but which is tagged EnPassant with no
capturable pawn behind its destination makes perform_move panic rather
than return Ok, refuting the claim that perform_move completes and
returns Ok for every move with an occupied origin. -/
theorem c7_counterexample :
    ChessBoard.new.get_square_by_index 0 1 =
      some (some ⟨(0, 1), .White, .Pawn⟩) ∧
    ChessBoard.new.perform_move (mkMove (0, 1) (4, 4) .EnPassant none) =
      none := by decide
/-- C7 amended: applying a move whose origin square is empty always panics
(no error value is returned and no board is produced); on a well-formed
board a Standard, DoubleAdvance or Promotion move from an occupied origin
with an in-range destination completes and returns a board. -/
theorem c7_amended_empty_origin_panics (b : ChessBoard) (m : ChessMove)
    (p : ChessPiece) :
    (b.get_square_by_index m.from_square.fst m.from_square.snd = some none →
      b.perform_move m = none) ∧
    (WellFormedGrid b →
      (m.move_type = .Standard ∨ m.move_type = .DoubleAdvance ∨
        m.move_type = .Promotion) →
      b.get_square_by_index m.from_square.fst m.from_square.snd =
        some (some p) →
      m.destination.fst < 8 → m.destination.snd < 8 →
      ∃ b', b.perform_move m = some b') := by
  constructor
  · intro hget
    simp [ChessBoard.perform_move, perform_move_fuel, hget]
  · intro hwf hmt hget hdc hdr
    rcases get_square_some_bounds b m.from_square.fst m.from_square.snd _
      hget with ⟨colL, hcol, hrL⟩
    -- clearing the origin cell succeeds whatever the flag updates did
    have hsetAll : ∀ st : BoardStateFlags,
        ({ b with state := st } : ChessBoard).setSquare
          m.from_square.fst m.from_square.snd none =
        some { b with state := st, squares := b.squares.set m.from_square.fst (colL.set m.from_square.snd none) } := fun st =>
      setSquare_eq_some { b with state := st } m.from_square.fst
        m.from_square.snd none colL hcol hrL
    have hwf3 : ∀ st : BoardStateFlags, WellFormedGrid
        { b with state := st, squares := b.squares.set m.from_square.fst (colL.set m.from_square.snd none) } := fun st =>
      wf_setSquare { b with state := st } _ m.from_square.fst
        m.from_square.snd none hwf (hsetAll st)
    rcases hmt with hmt | hmt | hmt <;>
    · simp only [ChessBoard.perform_move, perform_move_fuel, hget, hmt,
        Option.bind_eq_bind, Option.some_bind, pure]
      rw [hsetAll]
      simp only [Option.some_bind]
      rw [Option.bind_some]
      exact setSquare_isSome_of_wf _ m.destination.fst m.destination.snd
        _ (hwf3 _) hdc hdr
/-- C7 witness: the amended theorem applied to the standard board: an
empty-origin move panics, and the Standard pawn push a2-a3 completes. -/
theorem c7_witness :
    ChessBoard.new.perform_move (mkMove (4, 4) (0, 0) .Standard none) =
      none ∧
    ∃ b', ChessBoard.new.perform_move (mkMove (0, 1) (0, 2) .Standard none) =
      some b' :=
  ⟨(c7_amended_empty_origin_panics ChessBoard.new
      (mkMove (4, 4) (0, 0) .Standard none) ⟨(0, 0), .White, .Pawn⟩).1
      (by decide),
    (c7_amended_empty_origin_panics ChessBoard.new
      (mkMove (0, 1) (0, 2) .Standard none) ⟨(0, 1), .White, .Pawn⟩).2
      (by decide) (Or.inl rfl) (by decide) (by decide) (by decide)⟩
/-- An ASCII character is one UTF-8 byte. -/
theorem asciiCharUtf8Size (c : Char) (h : c.toNat ≤ 127) :
    c.utf8Size = 1 := by
  unfold Char.utf8Size
  have h1 : c.val ≤ UInt32.ofNatCore 0x7F (by decide) := by
    rw [UInt32.le_def]
    exact_mod_cast h
  rw [if_pos h1]
/-- name_to_index_pair never panics: it always returns, its successful
results are in-range indices, and its failures are InvalidArgument
errors. -/
theorem name_to_index_pair_spec (s : String) :
    ∃ r, name_to_index_pair s = some r ∧
      (∀ c ro, r = .ok (c, ro) → c ≤ 7 ∧ ro ≤ 7) ∧
      (∀ e, r = .error e → ∃ msg, e = .InvalidArgument msg) := by
  by_cases hsz : s.utf8ByteSize ≠ 2
  · have hval : name_to_index_pair s = some (.error (.InvalidArgument
        ("Square name expected, e.g. 'b4', was given: '" ++ s ++ "'"))) := by
      unfold name_to_index_pair
      rw [if_pos hsz]
    exact ⟨_, hval, fun c ro h => Except.noConfusion h,
      fun e h => ⟨_, (Except.error.inj h).symm⟩⟩
  · obtain ⟨cs⟩ := s
    cases cs with
    | nil =>
      exfalso
      simp [String.utf8ByteSize, String.utf8ByteSize.go] at hsz
    | cons c0 rest =>
      unfold name_to_index_pair
      rw [if_neg hsz]
      simp only
      by_cases hcol : c0.toNat > 'h'.toNat ∨ c0.toNat < 'a'.toNat
      · rw [if_pos hcol]
        exact ⟨_, rfl, fun c ro h => Except.noConfusion h,
          fun e h => ⟨_, (Except.error.inj h).symm⟩⟩
      · rw [if_neg hcol]
        push_neg at hcol
        cases rest with
        | nil =>
          exfalso
          have h1 : c0.utf8Size = 1 := by
            apply asciiCharUtf8Size
            have hle := hcol.1
            rw [show ('h').toNat = 104 from rfl] at hle
            omega
          rw [not_ne_iff] at hsz
          simp [String.utf8ByteSize, String.utf8ByteSize.go, h1] at hsz
        | cons c1 rest2 =>
          simp only
          by_cases hrow : c1.toNat > '8'.toNat ∨ c1.toNat < '1'.toNat
          · rw [if_pos hrow]
            exact ⟨_, rfl, fun c ro h => Except.noConfusion h,
              fun e h => ⟨_, (Except.error.inj h).symm⟩⟩
          · rw [if_neg hrow]
            push_neg at hrow
            refine ⟨_, rfl, ?_, fun e h => Except.noConfusion h⟩
            intro c ro h
            cases h
            constructor
            · have hle := hcol.1
              rw [show ('h').toNat = 104 from rfl] at hle ⊢
              omega
            · have hle := hrow.1
              rw [show ('8').toNat = 56 from rfl] at hle ⊢
              omega
/-- C8 counterexample: get_square_by_index on the standard board with an
out-of-range column or row panics (models the Rust index-out-of-bounds
abort), so no recoverable error value is returned to the caller. -/
theorem c8_counterexample :
    ChessBoard.new.get_square_by_index 8 0 = none ∧
    ChessBoard.new.get_square_by_index 0 8 = none := by decide
/-- C8 amended: square lookup by index panics (never yields an error
value) on any out-of-range column or row, while get_square_by_name never
panics: it returns Ok or an InvalidArgument error, and any name whose
UTF-8 byte length is not 2 yields InvalidArgument with the literal
'Square name expected' message. -/
theorem c8_amended_square_lookup (b : ChessBoard) (c r : Nat) (s : String) :
    (WellFormedGrid b → (7 < c ∨ 7 < r) →
      b.get_square_by_index c r = none) ∧
    (WellFormedGrid b →
      (∃ sq, b.get_square_by_name s = some (.ok sq)) ∨
      (∃ msg, b.get_square_by_name s =
        some (.error (.InvalidArgument msg)))) ∧
    (s.utf8ByteSize ≠ 2 → ∃ msg, b.get_square_by_name s =
      some (.error (.InvalidArgument msg))) := by
  refine ⟨?_, ?_, ?_⟩
  · rintro ⟨hlen, hcols⟩ hoob
    unfold ChessBoard.get_square_by_index
    rcases hoob with hc | hr
    · have : b.squares.get? c = none := by
        rw [List.get?_eq_none]
        omega
      rw [this]
      rfl
    · cases hcol : b.squares.get? c with
      | none => rfl
      | some colL =>
        have hcl : colL.length = 8 := hcols _ (List.get?_mem hcol)
        have hnone : colL.get? r = none := by
          rw [List.get?_eq_none]
          omega
        rw [Option.some_bind, hnone]
  · rintro ⟨hlen, hcols⟩
    rcases name_to_index_pair_spec s with ⟨res, hres, hbound, herr⟩
    unfold ChessBoard.get_square_by_name
    rw [hres]
    simp only [Option.bind_eq_bind, Option.some_bind]
    cases res with
    | error e =>
      rcases herr e rfl with ⟨msg, hmsg⟩
      exact Or.inr ⟨msg, by rw [hmsg]⟩
    | ok pr =>
      obtain ⟨ci, ri⟩ := pr
      rcases hbound ci ri rfl with ⟨hci, hri⟩
      have hc' : ci < b.squares.length := by omega
      have hget := List.get?_eq_get hc'
      have hcl : (b.squares.get ⟨ci, hc'⟩).length = 8 :=
        hcols _ (b.squares.get_mem ci hc')
      have hr' : ri < (b.squares.get ⟨ci, hc'⟩).length := by omega
      have hget2 := List.get?_eq_get hr'
      refine Or.inl ⟨(b.squares.get ⟨ci, hc'⟩).get ⟨ri, hr'⟩, ?_⟩
      simp only [ChessBoard.get_square_by_index, hget, Option.some_bind,
        hget2]
  · intro hsz
    have hval : name_to_index_pair s = some (.error (.InvalidArgument
        ("Square name expected, e.g. 'b4', was given: '" ++ s ++ "'"))) := by
      unfold name_to_index_pair
      rw [if_pos hsz]
    refine ⟨"Square name expected, e.g. 'b4', was given: '" ++ s ++ "'", ?_⟩
    unfold ChessBoard.get_square_by_name
    rw [hval]
    simp only [Option.bind_eq_bind, Option.some_bind]
/-- C8 witness: the amended theorem at the standard board: column 8
panics, the name e3 resolves, and abc123 (wrong byte length) yields the
InvalidArgument message. -/
theorem c8_witness :
    ChessBoard.new.get_square_by_index 8 3 = none ∧
    ((∃ sq, ChessBoard.new.get_square_by_name "e3" = some (.ok sq)) ∨
      (∃ msg, ChessBoard.new.get_square_by_name "e3" =
        some (.error (.InvalidArgument msg)))) ∧
    (∃ msg, ChessBoard.new.get_square_by_name "abc123" =
      some (.error (.InvalidArgument msg))) :=
  ⟨(c8_amended_square_lookup ChessBoard.new 8 3 "e3").1 (by decide)
      (Or.inl (by omega)),
    (c8_amended_square_lookup ChessBoard.new 8 3 "e3").2.1 (by decide),
    (c8_amended_square_lookup ChessBoard.new 8 3 "abc123").2.2
      (by decide)⟩
/-- flagsOnlyCleared is reflexive. -/
theorem flagsOnlyCleared_refl (s : BoardStateFlags) :
    flagsOnlyCleared s s :=
  ⟨id, id, id, id⟩
/-- flagsOnlyCleared is transitive. -/
theorem flagsOnlyCleared_trans {a b c : BoardStateFlags}
    (h1 : flagsOnlyCleared a b) (h2 : flagsOnlyCleared b c) :
    flagsOnlyCleared a c :=
  ⟨fun h => h2.1 (h1.1 h), fun h => h2.2.1 (h1.2.1 h),
    fun h => h2.2.2.1 (h1.2.2.1 h), fun h => h2.2.2.2 (h1.2.2.2 h)⟩
/-- The rook-departure update only clears flags. -/
theorem rookFlagUpd_cleared (p : ChessPiece) (cur : Nat × Nat)
    (st : BoardStateFlags) : flagsOnlyCleared (rookFlagUpd p cur st) st := by
  unfold rookFlagUpd
  split
  · split <;> (refine ⟨?_, ?_, ?_, ?_⟩ <;> (intro h; simp_all))
  · exact flagsOnlyCleared_refl st
/-- The king-move update only clears flags. -/
theorem kingFlagUpd_cleared (p : ChessPiece) (st : BoardStateFlags) :
    flagsOnlyCleared (kingFlagUpd p st) st := by
  unfold kingFlagUpd
  split
  · split <;> (refine ⟨?_, ?_, ?_, ?_⟩ <;> (intro h; simp_all))
  · exact flagsOnlyCleared_refl st
/-- Castling-rights flags are monotonic under perform_move (at any
recursion fuel): every write to them in the body stores the old value or
false, so a cleared flag stays cleared. -/
theorem perform_move_fuel_flags_mono :
    ∀ (f : Nat) (b : ChessBoard) (m : ChessMove) (b' : ChessBoard),
    perform_move_fuel f b m = some b' →
    flagsOnlyCleared b'.state b.state := by
  intro f
  induction f with
  | zero => intro b m b' h; cases h
  | succ f ih =>
    intro b m b' h
    simp only [perform_move_fuel, Option.bind_eq_bind,
      Option.bind_eq_some] at h
    rcases h with ⟨pOpt, _hget, h⟩
    rcases h with ⟨p0, _hp0, h⟩
    rcases h with ⟨step, hstep, h⟩
    rcases h with ⟨b3, hs3, h⟩
    rcases h with ⟨b4, hs4, hb4⟩
    cases hb4
    have hst3 := (setSquare_spec _ _ _ _ _ hs3).1
    have hst4 := (setSquare_spec _ _ _ _ _ hs4).1
    have hfin : b'.state =
        kingFlagUpd step.snd (rookFlagUpd step.snd m.from_square
          step.fst.state) := by
      rw [hst4, hst3]
    have hstep1 : flagsOnlyCleared step.fst.state b.state := by
      cases hmt : m.move_type <;> rw [hmt] at hstep
      · -- Standard
        simp only [Option.some.injEq] at hstep
        cases hstep
        exact ⟨id, id, id, id⟩
      · -- DoubleAdvance
        simp only [Option.some.injEq] at hstep
        cases hstep
        exact ⟨id, id, id, id⟩
      · -- EnPassant
        simp only [Option.bind_eq_bind, Option.bind_eq_some] at hstep
        rcases hstep with ⟨capOpt, _h1, hstep⟩
        rcases hstep with ⟨cap, _h2, hstep⟩
        rcases hstep with ⟨b1, hset, hpure⟩
        simp only [pure, Option.some.injEq] at hpure
        cases hpure
        have := (setSquare_spec _ _ _ _ _ hset).1
        simp only
        rw [this]
        exact ⟨id, id, id, id⟩
      · -- Castle
        simp only [Option.bind_eq_bind, Option.bind_eq_some] at hstep
        rcases hstep with ⟨b1, hrec, hpure⟩
        simp only [pure, Option.some.injEq] at hpure
        cases hpure
        exact flagsOnlyCleared_trans (ih _ _ _ hrec) ⟨id, id, id, id⟩
      · -- Promotion
        simp only [Option.some.injEq] at hstep
        cases hstep
        exact ⟨id, id, id, id⟩
    rw [hfin]
    exact flagsOnlyCleared_trans (kingFlagUpd_cleared _ _)
      (flagsOnlyCleared_trans (rookFlagUpd_cleared _ _ _) hstep1)
/-- record_board_state only touches the repetition counts. -/
theorem record_board_state_state (b b' : ChessBoard)
    (h : b.record_board_state = some b') : b'.state = b.state := by
  simp only [ChessBoard.record_board_state, Option.bind_eq_bind,
    Option.bind_eq_some] at h
  rcases h with ⟨hash, _hh, h⟩
  by_cases hmem : b.board_state_counts.any (fun e => e.fst == hash)
  · simp only [hmem, if_true, Option.some.injEq, pure] at h
    cases h
    rfl
  · simp only [hmem, if_false, Option.some.injEq, pure] at h
    rw [Bool.not_eq_true] at hmem
    simp only [hmem, Bool.false_eq_true, if_false, Option.some.injEq,
      pure] at h
    cases h
    rfl
/-- For every applied move that is not tagged Promotion, the
castling-flag section of perform_move runs on the unchanged moving piece,
so the result state is kingFlagUpd of rookFlagUpd of some intermediate
state. -/
theorem perform_move_state_shape (b : ChessBoard) (m : ChessMove)
    (b' : ChessBoard) (p : ChessPiece)
    (h : b.perform_move m = some b')
    (hget : b.get_square_by_index m.from_square.fst m.from_square.snd =
      some (some p))
    (hmt : m.move_type ≠ .Promotion) :
    ∃ st1 : BoardStateFlags,
      b'.state = kingFlagUpd p (rookFlagUpd p m.from_square st1) := by
  simp only [ChessBoard.perform_move, perform_move_fuel, hget,
    Option.bind_eq_bind, Option.some_bind, Option.bind_eq_some] at h
  rcases h with ⟨step, hstep, h⟩
  rcases h with ⟨b3, hs3, h⟩
  rcases h with ⟨b4, hs4, hb4⟩
  cases hb4
  have hst3 := (setSquare_spec _ _ _ _ _ hs3).1
  have hst4 := (setSquare_spec _ _ _ _ _ hs4).1
  have hsnd : step.snd = p := by
    cases hmtv : m.move_type <;> rw [hmtv] at hstep
    · simp only [Option.some.injEq] at hstep; cases hstep; rfl
    · simp only [Option.some.injEq] at hstep; cases hstep; rfl
    · simp only [Option.bind_eq_bind, Option.bind_eq_some] at hstep
      rcases hstep with ⟨capOpt, _h1, hstep⟩
      rcases hstep with ⟨cap, _h2, hstep⟩
      rcases hstep with ⟨b1, _hset, hpure⟩
      simp only [pure, Option.some.injEq] at hpure
      cases hpure
      rfl
    · simp only [Option.bind_eq_bind, Option.bind_eq_some] at hstep
      rcases hstep with ⟨b1, _hrec, hpure⟩
      simp only [pure, Option.some.injEq] at hpure
      cases hpure
      rfl
    · exact absurd hmtv hmt
  refine ⟨step.fst.state, ?_⟩
  rw [hst4, hst3, hsnd]
/-- C9 counterexample: a Promotion-tagged move applied to the king square
e1 of the standard board succeeds, turns the King into a Queen at (4,1),
and leaves both White castling-rights flags set: the piece type is
overwritten before the flag section tests it. -/
theorem c9_counterexample :
    ChessBoard.new.get_square_by_index 4 0 =
      some (some ⟨(4, 0), .White, .King⟩) ∧
    (ChessBoard.new.perform_move (mkMove (4, 0) (4, 1) .Promotion
      none)).isSome = true ∧
    c9After.state.white_castle_queenside = true ∧
    c9After.state.white_castle_kingside = true ∧
    c9After.get_square_by_index 4 1 =
      some (some ⟨(4, 1), .White, .Queen⟩) := by decide
/-- C9 amended: under perform_move and perform_move_and_record every
castling-rights flag that is false stays false (monotonicity); for moves
not tagged Promotion, a king move clears both of its side's wing flags
and a rook move off its exact home corner clears that wing's flag. -/
theorem c9_amended_castling_flags (b : ChessBoard) (m : ChessMove)
    (b' : ChessBoard) (p : ChessPiece) :
    (b.perform_move m = some b' → flagsOnlyCleared b'.state b.state) ∧
    (b.perform_move_and_record m = some b' →
      flagsOnlyCleared b'.state b.state) ∧
    (b.perform_move m = some b' → m.move_type ≠ .Promotion →
      b.get_square_by_index m.from_square.fst m.from_square.snd =
        some (some p) →
      ((p.piece_type = .King →
        (p.side = .White → b'.state.white_castle_queenside = false ∧
          b'.state.white_castle_kingside = false) ∧
        (p.side = .Black → b'.state.black_castle_queenside = false ∧
          b'.state.black_castle_kingside = false)) ∧
      (p.piece_type = .Rook →
        (m.from_square = (0, 0) →
          b'.state.white_castle_queenside = false) ∧
        (m.from_square = (7, 0) →
          b'.state.white_castle_kingside = false) ∧
        (m.from_square = (0, 7) →
          b'.state.black_castle_queenside = false) ∧
        (m.from_square = (7, 7) →
          b'.state.black_castle_kingside = false)))) := by
  refine ⟨fun h => perform_move_fuel_flags_mono 2 b m b' h, ?_, ?_⟩
  · intro h
    simp only [ChessBoard.perform_move_and_record, Option.bind_eq_bind,
      Option.bind_eq_some] at h
    rcases h with ⟨pOpt, _hget, h⟩
    rcases h with ⟨p0, _hp0, h⟩
    rcases h with ⟨b2, hpm, h⟩
    rcases h with ⟨b3, hrec, hb3⟩
    simp only [Option.some.injEq, pure] at hb3
    cases hb3
    have h1 := perform_move_fuel_flags_mono 2 _ m b2 hpm
    have h2 := record_board_state_state _ _ hrec
    simp only
    rw [h2]
    exact flagsOnlyCleared_trans h1 ⟨id, id, id, id⟩
  · intro h hmt hget
    rcases perform_move_state_shape b m b' p h hget hmt with ⟨st1, hshape⟩
    constructor
    · intro hk
      rw [hshape]
      unfold kingFlagUpd
      rw [if_pos hk]
      cases hside : p.side
      · exact ⟨fun _ => ⟨rfl, rfl⟩, fun hb => Side.noConfusion hb⟩
      · exact ⟨fun hw => Side.noConfusion hw, fun _ => ⟨rfl, rfl⟩⟩
    · intro hr
      rw [hshape]
      have hnk : ¬p.piece_type = .King := by rw [hr]; intro hh; cases hh
      unfold kingFlagUpd
      rw [if_neg hnk]
      unfold rookFlagUpd
      rw [if_pos hr]
      refine ⟨?_, ?_, ?_, ?_⟩ <;> (intro hcur; rw [hcur])
/-- A some-valued Option equals some of its getD. -/
theorem opt_eq_some_getD {α : Type} (o : Option α) (d : α)
    (h : o.isSome = true) : o = some (o.getD d) := by
  cases o
  · cases h
  · rfl
/-- C9 witness: the amended theorem applied to concrete moves: a knight
move under perform_move, a recorded pawn push under
perform_move_and_record, the king move e1-e2 and the rook move a1-a3 on
the standard board. -/
theorem c9_witness :
    flagsOnlyCleared c9MonoAfter.state ChessBoard.new.state ∧
    flagsOnlyCleared c9RecAfter.state c9RecBoard.state ∧
    (c9KingAfter.state.white_castle_queenside = false ∧
      c9KingAfter.state.white_castle_kingside = false) ∧
    c9RookAfter.state.white_castle_queenside = false :=
  ⟨(c9_amended_castling_flags ChessBoard.new
      (mkMove (1, 0) (2, 2) .Standard none) c9MonoAfter
      ⟨(1, 0), .White, .Knight⟩).1 (by decide),
    (c9_amended_castling_flags c9RecBoard
      (mkMove (0, 1) (0, 2) .Standard none) c9RecAfter
      ⟨(0, 1), .White, .Pawn⟩).2.1
      (opt_eq_some_getD _ _ (by decide)),
    (((c9_amended_castling_flags ChessBoard.new
      (mkMove (4, 0) (4, 1) .Standard none) c9KingAfter
      ⟨(4, 0), .White, .King⟩).2.2 (by decide) (by decide) (by decide)).1
      rfl).1 rfl,
    ((((c9_amended_castling_flags ChessBoard.new
      (mkMove (0, 0) (0, 2) .Standard none) c9RookAfter
      ⟨(0, 0), .White, .Rook⟩).2.2 (by decide) (by decide) (by decide)).2
      rfl).1 rfl)⟩
/-- With no king of the side on the grid, the unwrap in is_checked
panics. -/
theorem no_king_is_checked_panics (b : ChessBoard) (side : Side)
    (h : hasKing b side = false) : b.is_checked side = none := by
  unfold ChessBoard.is_checked
  have hfind : b.squares.findSome?
      (fun colL => colL.find? (kingSquarePred side)) = none := by
    rw [List.findSome?_eq_none_iff]
    intro colL hcol
    rw [List.find?_eq_none]
    intro x hx
    unfold hasKing at h
    rw [List.any_eq_false] at h
    have hcolF := h colL hcol
    rw [Bool.not_eq_true] at hcolF
    rw [List.any_eq_false] at hcolF
    exact hcolF x hx
  rw [hfind]
/-- With no king of the side to move, is_game_over panics through its
initial is_checked call. -/
theorem no_king_is_game_over_panics (b : ChessBoard) (side : Side)
    (h : hasKing b side = false) : b.is_game_over side = none := by
  have hic := no_king_is_checked_panics b side h
  cases side <;> simp [ChessBoard.is_game_over, hic]
/-- C10 counterexample: the empty board parses, White has no king on it,
and yet get_all_moves for White returns an empty list without panicking
(there is no piece whose move simulation would call is_checked). -/
theorem c10_counterexample :
    (ChessBoard.from_forsyth_edwards "8/8/8/8/8/8/8/8 w - - 0 0").isOk =
      true ∧
    hasKing c10EmptyBoard .White = false ∧
    c10EmptyBoard.get_all_moves .White = some [] := by decide
/-- C10 amended: on every board whose grid holds no king of a side,
is_checked and is_game_over for that side panic (the unwrap of None); and
on the concrete kingless one-pawn board, get_moves for the pawn,
get_all_moves and is_game_over panic as well, through the legality
filter's is_checked call. -/
theorem c10_amended_no_king_panics (b : ChessBoard) (s : Side) :
    (hasKing b s = false →
      b.is_checked s = none ∧ b.is_game_over s = none) ∧
    ((ChessBoard.from_forsyth_edwards "8/8/8/8/8/8/P7/8 w - - 0 0").isOk =
      true ∧
      hasKing c10PawnBoard .White = false ∧
      ChessPiece.get_moves ⟨(0, 1), .White, .Pawn⟩ c10PawnBoard = none ∧
      c10PawnBoard.get_all_moves .White = none ∧
      c10PawnBoard.is_game_over .White = none) := by
  constructor
  · intro h
    exact ⟨no_king_is_checked_panics b s h,
      no_king_is_game_over_panics b s h⟩
  · exact ⟨by decide, by decide, by decide, by decide, by decide⟩
/-- C10 witness: the amended theorem applied to the one-pawn kingless
board. -/
theorem c10_witness :
    c10PawnBoard.is_checked .White = none ∧
    c10PawnBoard.is_game_over .White = none :=
  (c10_amended_no_king_panics c10PawnBoard .White).1 (by decide)

end ChessBot
